import Mathlib

/-!
# Hybrid drone perception core: visual odometry and ultrasonic ranging

A shallow embedding of `components/visual_odometry/visual_odometry.c`,
`components/ultrasonic/ultrasonic.c` and `components/navigation/navigation.c`, followed by
the properties proved about it.

Conventions of the embedding.

* C `int` values are `Int`; loop counters and element counts that start at 0 and only
  grow are `Nat`.  All quantities stay far below the 32-bit range on the inputs of
  interest (pixel coordinates of an 80x60 frame, at most 50 features), so no
  wrap-around is modelled for them.
* A C array reached through a pointer is a total function from the index to the
  element (`Nat → α`); a store is `Function.update`.  Bounds are proved separately, as
  statements about which indices a function touches.
* `float` / `double` values are exact rationals (`ℚ`): rounding is not modelled.
  `atan2` is a parameter of `estimate_motion`.
* The hardware (`esp_timer_get_time`, `gpio_get_level`) is an oracle indexed by the
  number of reads made so far (the *tick*); polling loops take a fuel argument.
* A task is embedded as one pass of its endless loop.  What a pass does towards the
  outside (items handed to `xQueueSend`, warnings, calls of other components) is recorded
  as a list; the capacity of the FreeRTOS queues is not modelled.
-/

namespace HybridDrone

/-! ## Visual odometry: data model -/

def VO_IMAGE_WIDTH : Nat := 80
def VO_IMAGE_HEIGHT : Nat := 60
def FEATURE_THRESHOLD : Int := 50
def MIN_MATCH_DISTANCE_SQ : Int := 100

/-- The C struct `feature_point_t`: a pixel coordinate. -/
structure feature_point_t where
  x : Int
  y : Int
deriving DecidableEq, Repr

/-- The C struct `vo_data_t`: the motion delta sent to navigation. -/
structure vo_data_t where
  dx : ℚ
  dy : ℚ
  dz : ℚ
  roll : ℚ
  pitch : ℚ
  yaw : ℚ
  timestamp_ms : Nat

/-! ## Visual odometry: feature detection -/

/-- The condition of the `if` in the body of `detect_features`: the centre pixel differs
by more than `FEATURE_THRESHOLD` from its upper, lower, left or right neighbour. -/
def feature_condition (gray_frame : Nat → Nat) (x y : Nat) : Bool :=
  let center_pixel : Int := gray_frame (y * VO_IMAGE_WIDTH + x)
  decide (|center_pixel - gray_frame ((y - 1) * VO_IMAGE_WIDTH + x)| > FEATURE_THRESHOLD) ||
  decide (|center_pixel - gray_frame ((y + 1) * VO_IMAGE_WIDTH + x)| > FEATURE_THRESHOLD) ||
  decide (|center_pixel - gray_frame (y * VO_IMAGE_WIDTH + (x - 1))| > FEATURE_THRESHOLD) ||
  decide (|center_pixel - gray_frame (y * VO_IMAGE_WIDTH + (x + 1))| > FEATURE_THRESHOLD)

/-- The variables `detect_features` updates: the output array and `feature_count`. -/
structure DetectState where
  features : Nat → feature_point_t
  feature_count : Nat

/-- Body of the inner loop of `detect_features` for the pixel `(x, y)`. -/
def detect_pixel (gray_frame : Nat → Nat) (max_features : Int) (y : Nat)
    (st : DetectState) (x : Nat) : DetectState :=
  if feature_condition gray_frame x y then
    if (st.feature_count : Int) < max_features then
      { features := Function.update st.features st.feature_count ⟨x, y⟩
        feature_count := st.feature_count + 1 }
    else st
  else st

/-- Inner loop of `detect_features`: `for (x = 1; x < VO_IMAGE_WIDTH - 1; x++)`. -/
def detect_row (gray_frame : Nat → Nat) (max_features : Int)
    (st : DetectState) (y : Nat) : DetectState :=
  (List.range' 1 (VO_IMAGE_WIDTH - 2)).foldl (detect_pixel gray_frame max_features y) st

/-- The function `detect_features`: the outer loop
`for (y = 1; y < VO_IMAGE_HEIGHT - 1; y++)`, started with `feature_count = 0`.
The returned state holds the array after the call and the returned count. -/
def detect_features (gray_frame : Nat → Nat) (features : Nat → feature_point_t)
    (max_features : Int) : DetectState :=
  (List.range' 1 (VO_IMAGE_HEIGHT - 2)).foldl (detect_row gray_frame max_features)
    ⟨features, 0⟩

/-! ## Visual odometry: feature matching -/

/-- The value `dx * dx + dy * dy` computed in the inner loop of `match_features`.  For
pixel coordinates of an 80x60 frame it is below `80 * 80 + 60 * 60`, far from the 32-bit
range, so the C `int` arithmetic is exact. -/
def distance_sq (c p : feature_point_t) : Int :=
  let dx := c.x - p.x
  let dy := c.y - p.y
  dx * dx + dy * dy

/-- The variables of the inner loop of `match_features`. -/
structure BestState where
  best_match_index : Int
  min_distance_sq : Int
deriving DecidableEq, Repr

/-- Body of the inner loop of `match_features` for the previous feature `j`. -/
def best_step (prev_features : Nat → feature_point_t) (c : feature_point_t)
    (st : BestState) (j : Nat) : BestState :=
  if distance_sq c (prev_features j) < st.min_distance_sq then
    { min_distance_sq := distance_sq c (prev_features j), best_match_index := j }
  else st

/-- Inner loop of `match_features`: `for (j = 0; j < prev_count; j++)`, started with
`best_match_index = -1` and `min_distance_sq = MIN_MATCH_DISTANCE_SQ`. -/
def best_match (prev_features : Nat → feature_point_t) (prev_count : Int)
    (c : feature_point_t) : BestState :=
  (List.range prev_count.toNat).foldl (best_step prev_features c)
    ⟨-1, MIN_MATCH_DISTANCE_SQ⟩

/-- The variables `match_features` updates: the `matches` array and `match_count`. -/
structure MatchState where
  matches_buf : Nat → Int
  match_count : Nat

/-- Body of the outer loop of `match_features` for the current feature `i`. -/
def match_step (prev_features : Nat → feature_point_t) (prev_count : Int)
    (curr_features : Nat → feature_point_t) (st : MatchState) (i : Nat) : MatchState :=
  let best_match_index := (best_match prev_features prev_count (curr_features i)).best_match_index
  if best_match_index ≠ -1 then
    { matches_buf := Function.update
        (Function.update st.matches_buf (st.match_count * 2) best_match_index)
        (st.match_count * 2 + 1) i
      match_count := st.match_count + 1 }
  else st

/-- The function `match_features` (its two frame arguments are unused in the source and
omitted): `for (i = 0; i < curr_count; i++)`, started with `match_count = 0`. -/
def match_features (prev_features : Nat → feature_point_t) (prev_count : Int)
    (curr_features : Nat → feature_point_t) (curr_count : Int)
    (matches_buf : Nat → Int) : MatchState :=
  (List.range curr_count.toNat).foldl (match_step prev_features prev_count curr_features)
    ⟨matches_buf, 0⟩

/-! ## Visual odometry: motion estimation -/

/-- The accumulators `avg_dx`, `avg_dy`, `avg_rotation` of `estimate_motion`. -/
structure MotionAcc where
  avg_dx : ℚ
  avg_dy : ℚ
  avg_rotation : ℚ

/-- Body of the loop of `estimate_motion` for match `i`.  An index read from `matches`
is used as an array index, hence `Int.toNat`.  (`matches` is a reserved word of Lean;
the array is named `matches_buf`.) -/
def motion_step (atan2 : ℚ → ℚ → ℚ) (prev_features curr_features : Nat → feature_point_t)
    (matches_buf : Nat → Int) (acc : MotionAcc) (i : Nat) : MotionAcc :=
  let prev_index := (matches_buf (i * 2)).toNat
  let curr_index := (matches_buf (i * 2 + 1)).toNat
  let prev_angle := atan2 ((prev_features prev_index).y - (VO_IMAGE_HEIGHT : ℚ) / 2)
    ((prev_features prev_index).x - (VO_IMAGE_WIDTH : ℚ) / 2)
  let curr_angle := atan2 ((curr_features curr_index).y - (VO_IMAGE_HEIGHT : ℚ) / 2)
    ((curr_features curr_index).x - (VO_IMAGE_WIDTH : ℚ) / 2)
  { avg_dx := acc.avg_dx +
      (((curr_features curr_index).x - (prev_features prev_index).x : Int) : ℚ)
    avg_dy := acc.avg_dy +
      (((curr_features curr_index).y - (prev_features prev_index).y : Int) : ℚ)
    avg_rotation := acc.avg_rotation + (curr_angle - prev_angle) }

/-- The function `estimate_motion`: the value of `*vo_data` after the call.  The field
`timestamp_ms` is not written; the log calls are omitted. -/
def estimate_motion (atan2 : ℚ → ℚ → ℚ) (prev_features curr_features : Nat → feature_point_t)
    (matches_buf : Nat → Int) (match_count : Int) (vo_data : vo_data_t) : vo_data_t :=
  if match_count ≥ 5 then
    let acc := (List.range match_count.toNat).foldl
      (motion_step atan2 prev_features curr_features matches_buf) ⟨0, 0, 0⟩
    { vo_data with
      dx := acc.avg_dx / match_count
      dy := acc.avg_dy / match_count
      dz := 0
      yaw := acc.avg_rotation / match_count
      roll := 0
      pitch := 0 }
  else
    { vo_data with dx := 0, dy := 0, dz := 0, yaw := 0, roll := 0, pitch := 0 }

/-! ## Ultrasonic ranging: data model -/

/-- The C enum `sensor_id_t`. -/
inductive sensor_id_t where
  | SENSOR_FORWARD
  | SENSOR_BACKWARD
  | SENSOR_LEFT
  | SENSOR_RIGHT
  | SENSOR_UPWARD
  | SENSOR_DOWNWARD
  | SENSOR_DOWNWARD_FORWARD
deriving DecidableEq, Repr

/-- The C struct `ultrasonic_sensor_config_t`; a pin is its GPIO number. -/
structure ultrasonic_sensor_config_t where
  trigger_pin : Nat
  echo_pin : Nat
  id : sensor_id_t
deriving DecidableEq, Repr

/-- The C struct `ultrasonic_data_t`. -/
structure ultrasonic_data_t where
  distance_cm : ℚ
  timestamp_ms : Nat
  id : sensor_id_t
deriving DecidableEq

def NUM_SENSORS : Nat := 7

/-- The configuration table `sensors` (`GPIO_NUM_n` is the pin number `n`). -/
def sensors : List ultrasonic_sensor_config_t :=
  [ ⟨16, 17, .SENSOR_FORWARD⟩,
    ⟨18, 19, .SENSOR_BACKWARD⟩,
    ⟨26, 27, .SENSOR_LEFT⟩,
    ⟨14, 12, .SENSOR_RIGHT⟩,
    ⟨25, 33, .SENSOR_UPWARD⟩,
    ⟨32, 35, .SENSOR_DOWNWARD⟩,
    ⟨4, 5, .SENSOR_DOWNWARD_FORWARD⟩ ]

/-- The hardware seen by the ranging code.  Every read of the clock or of an input pin
is one *tick*; `esp_timer_get_time k` is the value (microseconds) returned by a clock read
made at tick `k`, and `gpio_get_level pin k` the level returned by a read of `pin` made at
tick `k`.  Writes to the trigger pin and `vTaskDelay` return nothing and are not
recorded. -/
structure World where
  esp_timer_get_time : Nat → Int
  gpio_get_level : Nat → Nat → Int

/-! ## Ultrasonic ranging: one measurement -/

/-- The two polling loops of `get_sensor_reading`, which differ only in the level they
wait on and in the deadline:
`while (gpio_get_level(echo_pin) == level) { if (esp_timer_get_time() > deadline) return false; }`,
started at tick `k`.  `some (true, k')`: the loop was left because the level changed, the
next read is tick `k'`; `some (false, k')`: the function returned `false`; `none`: the fuel
ran out. -/
def echo_wait_loop (w : World) (echo_pin : Nat) (level : Int) (deadline : Int) :
    Nat → Nat → Option (Bool × Nat)
  | 0, _ => none
  | fuel + 1, k =>
    if w.gpio_get_level echo_pin k = level then
      if w.esp_timer_get_time (k + 1) > deadline then some (false, k + 2)
      else echo_wait_loop w echo_pin level deadline fuel (k + 2)
    else some (true, k + 1)

/-- The function `get_sensor_reading`, started at tick `k` (the read of `start_time`).
`some (some distance, k')`: it returned `true` and stored `distance`; `some (none, k')`: it
returned `false`; in both cases the next read is tick `k'`.  `none`: a loop ran out of
fuel. -/
def get_sensor_reading (w : World) (fuel : Nat) (sensor : ultrasonic_sensor_config_t)
    (k : Nat) : Option (Option ℚ × Nat) :=
  let start_time := w.esp_timer_get_time k
  let timeout_time := start_time + 10000
  match echo_wait_loop w sensor.echo_pin 0 timeout_time fuel (k + 1) with
  | none => none
  | some (false, k₁) => some (none, k₁)
  | some (true, k₁) =>
    let echo_start_time := w.esp_timer_get_time k₁
    match echo_wait_loop w sensor.echo_pin 1 (timeout_time * 2) fuel (k₁ + 1) with
    | none => none
    | some (false, k₂) => some (none, k₂)
    | some (true, k₂) =>
      let echo_end_time := w.esp_timer_get_time k₂
      let echo_duration_us := echo_end_time - echo_start_time
      some (some ((echo_duration_us : ℚ) * (343 / 10000) / 2), k₂ + 1)

/-! ## Ultrasonic ranging: the sweep of `ultrasonic_task` -/

/-- The expression `(uint32_t)(esp_timer_get_time() / 1000)` for a clock value `t`. -/
def timestamp_ms_of (t : Int) : Nat :=
  (t.tdiv 1000 % 4294967296).toNat

/-- State of `ultrasonic_task`: the current tick and the items handed to `xQueueSend` so
far, oldest first. -/
structure SweepState where
  tick : Nat
  sent : List ultrasonic_data_t

/-- Body of the `for` loop of `ultrasonic_task` for one sensor: on success the measured
distance, on failure `-1.0f`, each with the time stamp read just before the send and the
sensor's id, is handed to `xQueueSend`.  Whether the queue has room is not modelled. -/
def sweep_sensor (w : World) (fuel : Nat) (st : SweepState)
    (sensor : ultrasonic_sensor_config_t) : Option SweepState :=
  match get_sensor_reading w fuel sensor st.tick with
  | none => none
  | some (some distance, k) =>
    let data : ultrasonic_data_t :=
      { distance_cm := distance
        timestamp_ms := timestamp_ms_of (w.esp_timer_get_time k)
        id := sensor.id }
    some ⟨k + 1, st.sent ++ [data]⟩
  | some (none, k) =>
    let error_data : ultrasonic_data_t :=
      { distance_cm := -1
        timestamp_ms := timestamp_ms_of (w.esp_timer_get_time k)
        id := sensor.id }
    some ⟨k + 1, st.sent ++ [error_data]⟩

/-- The `for` loop over a list of sensor configurations. -/
def sweep_list (w : World) (fuel : Nat) :
    List ultrasonic_sensor_config_t → SweepState → Option SweepState
  | [], st => some st
  | sensor :: rest, st =>
    match sweep_sensor w fuel st sensor with
    | none => none
    | some st' => sweep_list w fuel rest st'

/-- One sweep of `ultrasonic_task` (one pass of its endless `while (1)` loop, without the
final delay): `for (i = 0; i < NUM_SENSORS; i++)` over the table. -/
def ultrasonic_task_sweep (w : World) (fuel : Nat) (st : SweepState) : Option SweepState :=
  sweep_list w fuel (sensors.take NUM_SENSORS) st

/-- A monotonic clock that advances without bound. -/
def clock_advances (w : World) : Prop :=
  (∀ k, w.esp_timer_get_time k ≤ w.esp_timer_get_time (k + 1)) ∧
    ∀ t : Int, ∃ k, t < w.esp_timer_get_time k

/-! ## Ultrasonic ranging: the measured durations

The next two definitions repeat the control flow of `get_sensor_reading` and of the
sweep, but return the value of the local variable `echo_duration_us` instead of the
distance.  They are used to describe a sweep by the durations it measures; the theorems
`get_sensor_reading_eq_duration` and `sweep_list_of_durations` relate them to the
embedding of the code. -/

/-- The local variable `echo_duration_us` of `get_sensor_reading` started at tick `k`:
`some (some d, k')` when both loops are left normally, `some (none, k')` when the function
returns `false`, `none` when the fuel runs out. -/
def echo_duration_us (w : World) (fuel : Nat) (sensor : ultrasonic_sensor_config_t)
    (k : Nat) : Option (Option Int × Nat) :=
  match echo_wait_loop w sensor.echo_pin 0 (w.esp_timer_get_time k + 10000) fuel (k + 1) with
  | none => none
  | some (false, k₁) => some (none, k₁)
  | some (true, k₁) =>
    match echo_wait_loop w sensor.echo_pin 1 ((w.esp_timer_get_time k + 10000) * 2) fuel
        (k₁ + 1) with
    | none => none
    | some (false, k₂) => some (none, k₂)
    | some (true, k₂) => some (some (w.esp_timer_get_time k₂ - w.esp_timer_get_time k₁), k₂ + 1)

/-- The durations measured in a sweep over a list of sensors started at tick `k`, in
order; `none` stands for a measurement that timed out.  One more tick passes after each
measurement (the read of the time stamp). -/
def sweep_durations (w : World) (fuel : Nat) :
    List ultrasonic_sensor_config_t → Nat → Option (List (Option Int))
  | [], _ => some []
  | sensor :: rest, k =>
    match echo_duration_us w fuel sensor k with
    | none => none
    | some (d, k') =>
      match sweep_durations w fuel rest (k' + 1) with
      | none => none
      | some ds => some (d :: ds)

/-- The distance stored in the reading published for a measurement: the converted
duration, or the sentinel `-1` after a timeout. -/
def published_distance : Option Int → ℚ
  | some d => (d : ℚ) * 343 / 20000
  | none => -1

/-! ## Visual odometry: frame preprocessing -/

/-- What the JPEG library yields for a frame: `header_info.width`, `header_info.height`
and the decoded grayscale buffer of `width * height` bytes. -/
structure DecodedImage where
  width : Nat
  height : Nat
  decoded_buffer : Nat → Nat

/-- Body of the inner loop of the downsampling in `decode_jpeg_to_grayscale` for the
working pixel `(x, y)`.  The products `x * width` and `y * height` are taken without
wrap-around (they fit 32 bits for every image narrower than 27 million pixels). -/
def downsample_pixel (img : DecodedImage) (y : Nat) (gray_frame : Nat → Nat) (x : Nat) :
    Nat → Nat :=
  let src_x := x * img.width / VO_IMAGE_WIDTH
  let src_y := y * img.height / VO_IMAGE_HEIGHT
  if src_x < img.width ∧ src_y < img.height then
    Function.update gray_frame (y * VO_IMAGE_WIDTH + x)
      (img.decoded_buffer (src_y * img.width + src_x))
  else gray_frame

/-- Inner loop of the downsampling: `for (x = 0; x < VO_IMAGE_WIDTH; x++)`. -/
def downsample_row (img : DecodedImage) (gray_frame : Nat → Nat) (y : Nat) : Nat → Nat :=
  (List.range VO_IMAGE_WIDTH).foldl (downsample_pixel img y) gray_frame

/-- The function `decode_jpeg_to_grayscale`.  Its argument `decoded` is the outcome of the
calls that precede the loop: `none` when the function returns `ESP_FAIL` (no JPEG frame,
header parsing, allocation or decoding failed), `some img` otherwise.  The result is the
content of `gray_frame` after a return of `ESP_OK`, or `none` for `ESP_FAIL`. -/
def decode_jpeg_to_grayscale (decoded : Option DecodedImage) (gray_frame : Nat → Nat) :
    Option (Nat → Nat) :=
  match decoded with
  | none => none
  | some img => some ((List.range VO_IMAGE_HEIGHT).foldl (downsample_row img) gray_frame)

/-! ## Visual odometry: one cycle of `visual_odometry_task` -/

/-- The call `memcpy(dst, src, n * sizeof(element))` on arrays of elements. -/
def memcpy {α : Type} (dst src : Nat → α) (n : Nat) : Nat → α :=
  fun i => if i < n then src i else dst i

/-- What a cycle of `visual_odometry_task` does besides updating its buffers: the calls of
`estimate_motion`, the items handed to `xQueueSend`, and the warning logged when there are
too few matches. -/
inductive vo_event where
  | estimate_motion_called
  | queue_send (item : vo_data_t)
  | warn_insufficient_matches

/-- The variables that live across the cycles of `visual_odometry_task`, and the events
so far (oldest first). -/
structure VOState where
  prev_gray_frame : Nat → Nat
  current_gray_frame : Nat → Nat
  prev_features : Nat → feature_point_t
  curr_features : Nat → feature_point_t
  matches_buf : Nat → Int
  prev_feature_count : Int
  events : List vo_event

/-- The part of a cycle between `detect_features` and the carry-over: matching, motion
estimation and the send.  Returns the `matches` array and the events after it. -/
def vo_match_and_send (atan2 : ℚ → ℚ → ℚ) (now : Int) (st : VOState)
    (curr_features : Nat → feature_point_t) (current_feature_count : Int) :
    (Nat → Int) × List vo_event :=
  let vo_data : vo_data_t := ⟨0, 0, 0, 0, 0, 0, 0⟩
  if st.prev_feature_count > 0 ∧ current_feature_count > 0 then
    let m := match_features st.prev_features st.prev_feature_count curr_features
      current_feature_count st.matches_buf
    if (m.match_count : Int) ≥ 5 then
      let vo_data := estimate_motion atan2 st.prev_features curr_features m.matches_buf
        m.match_count vo_data
      let vo_data := { vo_data with timestamp_ms := timestamp_ms_of now }
      (m.matches_buf,
        st.events ++ [vo_event.estimate_motion_called, vo_event.queue_send vo_data])
    else
      (m.matches_buf, st.events ++ [vo_event.warn_insufficient_matches])
  else
    (st.matches_buf, st.events)

/-- One pass of the `while (1)` loop of `visual_odometry_task`.  `fb` is the outcome of
the camera and of the decoder: `none` when `esp_camera_fb_get` returns `NULL`, `some d`
otherwise, with `d` the argument of `decode_jpeg_to_grayscale`; `now` is the value of
`esp_timer_get_time()` read for the time stamp. -/
def visual_odometry_cycle (atan2 : ℚ → ℚ → ℚ) (now : Int)
    (fb : Option (Option DecodedImage)) (st : VOState) : VOState :=
  match fb with
  | none => st
  | some decoded =>
    match decode_jpeg_to_grayscale decoded st.current_gray_frame with
    | none => st
    | some current_gray_frame =>
      let detected := detect_features current_gray_frame st.curr_features 50
      let current_feature_count : Int := detected.feature_count
      let r := vo_match_and_send atan2 now st detected.features current_feature_count
      { prev_gray_frame :=
          memcpy st.prev_gray_frame current_gray_frame (VO_IMAGE_WIDTH * VO_IMAGE_HEIGHT)
        current_gray_frame := current_gray_frame
        prev_features := memcpy st.prev_features detected.features detected.feature_count
        curr_features := detected.features
        matches_buf := r.1
        prev_feature_count := current_feature_count
        events := r.2 }

/-- The items handed to `xQueueSend` among a list of events. -/
def queue_sends (events : List vo_event) : List vo_data_t :=
  events.filterMap fun e =>
    match e with
    | vo_event.queue_send item => some item
    | _ => none

/-! ## Navigation: one cycle of `navigation_task` -/

/-- The C struct `ObstacleData` of `navigation.h`. -/
structure ObstacleData where
  distance : ℚ
  angle_x : ℚ
  angle_y : ℚ
  sensor_type : Nat
  timestamp : Nat

/-- What a cycle of `navigation_task` can do towards the outside: the two log lines of the
source, and a call of `send_obstacle_data_to_autopilot` (declared in `navigation.h`). -/
inductive nav_event where
  | log_ultrasonic (id : sensor_id_t) (distance_cm : ℚ)
  | log_vo (dx dy yaw : ℚ)
  | send_obstacle_data_to_autopilot (obstacle : ObstacleData)

/-- One pass of the `while (1)` loop of `navigation_task`: `ultrasonic_rx` and `vo_rx` are
what the two calls of `xQueueReceive` deliver (`none`: nothing within 10 ms).  The body
logs what it received and does nothing else. -/
def navigation_cycle (ultrasonic_rx : Option ultrasonic_data_t) (vo_rx : Option vo_data_t) :
    List nav_event :=
  (match ultrasonic_rx with
    | some ultrasonic_data =>
      [nav_event.log_ultrasonic ultrasonic_data.id ultrasonic_data.distance_cm]
    | none => []) ++
  (match vo_rx with
    | some vo_data => [nav_event.log_vo vo_data.dx vo_data.dy vo_data.yaw]
    | none => [])

/-! ## Specification-side definitions for feature detection

These follow the wording of the specification, not the code, and are compared with
`detect_features` below. -/

/-- Intensity of the pixel in column `x`, row `y` of a row-major 80-wide frame. -/
def intensity (gray_frame : Nat → Nat) (x y : Nat) : Int :=
  gray_frame (y * 80 + x)

/-- Specification wording: the intensity of `(x, y)` differs in absolute value by more
than 50 from at least one of its four axis neighbours. -/
def spec_is_feature (gray_frame : Nat → Nat) (x y : Nat) : Prop :=
  ∃ n ∈ [(x, y - 1), (x, y + 1), (x - 1, y), (x + 1, y)],
    |intensity gray_frame x y - intensity gray_frame n.1 n.2| > 50

instance (gray_frame : Nat → Nat) (x y : Nat) : Decidable (spec_is_feature gray_frame x y) := by
  unfold spec_is_feature
  infer_instance

/-- Specification wording: the interior pixels `(x, y)`, `1 ≤ x ≤ 78`, `1 ≤ y ≤ 58`, in
row-major raster order (`y` ascending, then `x` ascending). -/
def interior_raster : List (Nat × Nat) :=
  (List.range' 1 58).flatMap fun y => (List.range' 1 78).map fun x => (x, y)

/-- The pixel `(x, y)` as a feature point. -/
def to_feature (p : Nat × Nat) : feature_point_t := ⟨p.1, p.2⟩

/-- Specification wording: all qualifying interior pixels of a frame, in raster order. -/
def qualifying_pixels (gray_frame : Nat → Nat) : List (Nat × Nat) :=
  interior_raster.filter fun p => decide (spec_is_feature gray_frame p.1 p.2)

/-- The first `count` entries of a feature array, as a list. -/
def feature_list (features : Nat → feature_point_t) (count : Nat) : List feature_point_t :=
  (List.range count).map features

/-- Raster order on pixels `(x, y)`: an earlier row, or the same row and an earlier
column. -/
def raster_lt (a b : Nat × Nat) : Prop :=
  a.2 < b.2 ∨ (a.2 = b.2 ∧ a.1 < b.1)

/-- The pairs `(best_match_index, i)` that `match_features` stores while it scans the
current features `0 .. m-1`, in the order it stores them. -/
def match_list (prev_features : Nat → feature_point_t) (prev_count : Int)
    (curr_features : Nat → feature_point_t) (m : Nat) : List (Int × Int) :=
  (List.range m).filterMap fun i =>
    if (best_match prev_features prev_count (curr_features i)).best_match_index ≠ -1 then
      some ((best_match prev_features prev_count (curr_features i)).best_match_index, (i : Int))
    else none

/-! ## Example inputs -/

/-- A frame of vertical stripes: even columns black, odd columns white (80 is even, so
the parity of the index is the parity of the column). -/
def stripes_frame : Nat → Nat :=
  fun i => if i % 2 = 0 then 0 else 255

/-- The first 51 interior pixels of row 1. -/
def row_one_pixels : List (Nat × Nat) :=
  (List.range' 1 51).map fun x => (x, 1)

/-- A clock that reads 50000 at tick 0 and advances 1000 microseconds per read, with an
echo line that stays high. -/
def stuck_high_world : World :=
  ⟨fun k => 50000 + 1000 * k, fun _ _ => 1⟩

/-- Clock readings of `scenario_world`, tick by tick: a measurement that succeeds takes
6 reads (start, level, echo start, level, echo end, time stamp), the one that times out
4 reads (start, level, clock, time stamp). -/
def scenario_clock : List Int :=
  [ 0, 10, 20, 30, 220, 230,
    240, 250, 260, 270, 560, 570,
    580, 590, 600, 610, 1000, 1010,
    1020, 1030, 1040, 1050, 1540, 1550,
    1560, 1570, 1580, 1590, 2180, 2190,
    2200, 2210, 12220, 12230,
    12240, 12250, 12260, 12270, 12960, 12970 ]

/-- A sweep in which the echo of every sensor but the downward one rises at the first poll
and falls at the next, after 200, 300, 400, 500, 600 and 700 microseconds; the downward
sensor (measured from tick 30) never answers. -/
def scenario_world : World :=
  ⟨fun k => scenario_clock.getD k 12980,
    fun _ k => if k = 1 ∨ k = 7 ∨ k = 13 ∨ k = 19 ∨ k = 25 ∨ k = 35 then 1 else 0⟩

/-- A decoded 80 x 60 image that is black except for the pixel in column 0 of row 10. -/
def bright_border_image : DecodedImage :=
  ⟨80, 60, fun i => if i = 800 then 255 else 0⟩

/-- The variables of `visual_odometry_task` before its first cycle: the previous frame
zeroed by `visual_odometry_init`, no previous feature, nothing done yet (the freshly
allocated buffers are taken as zero-filled). -/
def initial_vo_state : VOState :=
  ⟨fun _ => 0, fun _ => 0, fun _ => ⟨0, 0⟩, fun _ => ⟨0, 0⟩, fun _ => 0, 0, []⟩

/-- The variables of `visual_odometry_task` after a cycle that found the single feature
`(1, 10)`. -/
def one_feature_state : VOState :=
  ⟨fun _ => 0, fun _ => 0, fun _ => ⟨1, 10⟩, fun _ => ⟨0, 0⟩, fun _ => 0, 1, []⟩

/-! ## Theorems -/

/-! ### Feature detection -/

theorem feature_condition_iff_spec (gray_frame : Nat → Nat) (x y : Nat) :
    feature_condition gray_frame x y = true ↔ spec_is_feature gray_frame x y := by
  simp [feature_condition, spec_is_feature, intensity, VO_IMAGE_WIDTH, FEATURE_THRESHOLD,
    or_assoc]

/-- The two nested counted loops visit the pixels of a rectangle in raster order. -/
theorem foldl_nested_eq {σ : Type} (f : σ → Nat → Nat → σ) (xs : List Nat) :
    ∀ (ys : List Nat) (s : σ),
      ys.foldl (fun s y => xs.foldl (fun s x => f s y x) s) s =
        (ys.flatMap fun y => xs.map fun x => (x, y)).foldl (fun s p => f s p.2 p.1) s := by
  intro ys
  induction ys with
  | nil => intro s; rfl
  | cons y ys ih =>
    intro s
    simp only [List.foldl_cons, List.flatMap_cons, List.foldl_append, List.foldl_map]
    exact ih _

/-- The function `detect_features` as a single fold over the interior pixels. -/
theorem detect_features_eq_fold (gray_frame : Nat → Nat) (features : Nat → feature_point_t)
    (max_features : Int) :
    detect_features gray_frame features max_features =
      interior_raster.foldl (fun s p => detect_pixel gray_frame max_features p.2 s p.1)
        ⟨features, 0⟩ := by
  unfold detect_features interior_raster
  have h := foldl_nested_eq (fun s y x => detect_pixel gray_frame max_features y s x)
    (List.range' 1 78) (List.range' 1 58) ⟨features, 0⟩
  simpa [detect_row, VO_IMAGE_WIDTH, VO_IMAGE_HEIGHT] using h

/-- Loop invariant of `detect_features`, for any list of pixels visited so far: the count
is the number of qualifying pixels seen, capped; the entries below the count are those
pixels in order; the entries from the count on are untouched. -/
theorem detect_fold_invariant (gray_frame : Nat → Nat) (features : Nat → feature_point_t)
    (max_features : Int) (l : List (Nat × Nat)) :
    let r := l.foldl (fun s p => detect_pixel gray_frame max_features p.2 s p.1)
      (⟨features, 0⟩ : DetectState)
    let q := (l.filter fun p => decide (spec_is_feature gray_frame p.1 p.2)).map to_feature
    r.feature_count = min max_features.toNat q.length ∧
      (∀ i, i < r.feature_count → q[i]? = some (r.features i)) ∧
      (∀ i, r.feature_count ≤ i → r.features i = features i) := by
  induction l using List.reverseRecOn with
  | nil => simp
  | append_singleton l p ih =>
    simp only [List.foldl_append, List.foldl_cons, List.foldl_nil, List.filter_append,
      List.map_append] at ih ⊢
    obtain ⟨hc, hlt, hge⟩ := ih
    set r := l.foldl (fun s p => detect_pixel gray_frame max_features p.2 s p.1)
      (⟨features, 0⟩ : DetectState) with hr
    set q := (l.filter fun p => decide (spec_is_feature gray_frame p.1 p.2)).map to_feature
      with hq
    by_cases hp : spec_is_feature gray_frame p.1 p.2
    · have hfc : feature_condition gray_frame p.1 p.2 = true :=
        (feature_condition_iff_spec _ _ _).2 hp
      have hfil : (List.filter (fun p => decide (spec_is_feature gray_frame p.1 p.2)) [p]) = [p] := by
        simp [hp]
      rw [hfil]
      by_cases hcap : (r.feature_count : Int) < max_features
      · have hcnt : r.feature_count = q.length := by omega
        simp only [detect_pixel, hfc, hcap, if_true, List.length_append, List.map_cons,
          List.map_nil, List.length_singleton]
        refine ⟨by omega, ?_, ?_⟩
        · intro i hi
          by_cases hiq : i = r.feature_count
          · subst hiq
            rw [Function.update_same, hcnt, List.getElem?_append_right (le_refl _)]
            simp [to_feature]
          · rw [Function.update_noteq hiq, List.getElem?_append_left (by omega)]
            exact hlt i (by omega)
        · intro i hi
          rw [Function.update_noteq (by omega)]
          exact hge i (by omega)
      · simp only [detect_pixel, hfc, hcap, if_true, if_false, List.length_append,
          List.map_cons, List.map_nil, List.length_singleton]
        refine ⟨by omega, ?_, hge⟩
        intro i hi
        rw [List.getElem?_append_left (by omega)]
        exact hlt i hi
    · have hfc : ¬ feature_condition gray_frame p.1 p.2 = true := fun h =>
        hp ((feature_condition_iff_spec _ _ _).1 h)
      have hfil : (List.filter (fun p => decide (spec_is_feature gray_frame p.1 p.2)) [p]) = [] := by
        simp [hp]
      rw [hfil]
      simp only [detect_pixel, hfc, if_false, List.map_nil, List.append_nil]
      exact ⟨hc, hlt, hge⟩

theorem mem_interior_raster (p : Nat × Nat) :
    p ∈ interior_raster ↔ 1 ≤ p.1 ∧ p.1 ≤ 78 ∧ 1 ≤ p.2 ∧ p.2 ≤ 58 := by
  obtain ⟨x, y⟩ := p
  simp only [interior_raster, List.mem_flatMap, List.mem_map, List.mem_range'_1, Prod.mk.injEq]
  constructor
  · rintro ⟨y', hy, x', hx, rfl, rfl⟩
    omega
  · intro h
    exact ⟨y, by omega, x, by omega, rfl, rfl⟩

theorem interior_raster_pairwise : interior_raster.Pairwise raster_lt := by
  unfold interior_raster
  rw [List.pairwise_flatMap]
  constructor
  · intro y _
    rw [List.pairwise_map]
    exact (List.pairwise_lt_range' 1 78).imp fun h => Or.inr ⟨rfl, h⟩
  · refine (List.pairwise_lt_range' 1 58).imp ?_
    intro y₁ y₂ hlt a ha b hb
    simp only [List.mem_map] at ha hb
    obtain ⟨_, _, rfl⟩ := ha
    obtain ⟨_, _, rfl⟩ := hb
    exact Or.inl hlt

theorem mem_qualifying_pixels (gray_frame : Nat → Nat) (p : Nat × Nat) :
    p ∈ qualifying_pixels gray_frame ↔
      (1 ≤ p.1 ∧ p.1 ≤ 78 ∧ 1 ≤ p.2 ∧ p.2 ≤ 58) ∧ spec_is_feature gray_frame p.1 p.2 := by
  simp [qualifying_pixels, mem_interior_raster]

theorem qualifying_pixels_pairwise (gray_frame : Nat → Nat) :
    (qualifying_pixels gray_frame).Pairwise raster_lt :=
  interior_raster_pairwise.filter _

/-- The outcome of `detect_features` in terms of the qualifying pixels of the frame. -/
theorem detect_features_spec (gray_frame : Nat → Nat) (features : Nat → feature_point_t)
    (max_features : Int) :
    (detect_features gray_frame features max_features).feature_count =
        min max_features.toNat (qualifying_pixels gray_frame).length ∧
      (∀ i, i < (detect_features gray_frame features max_features).feature_count →
        ((qualifying_pixels gray_frame).map to_feature)[i]? =
          some ((detect_features gray_frame features max_features).features i)) ∧
      (∀ i, (detect_features gray_frame features max_features).feature_count ≤ i →
        (detect_features gray_frame features max_features).features i = features i) := by
  have h := detect_fold_invariant gray_frame features max_features interior_raster
  rw [detect_features_eq_fold]
  simpa [qualifying_pixels] using h

/-- The feature list written by `detect_features` is a prefix of the qualifying pixels. -/
theorem detect_features_list (gray_frame : Nat → Nat) (features : Nat → feature_point_t)
    (max_features : Int) :
    feature_list (detect_features gray_frame features max_features).features
        (detect_features gray_frame features max_features).feature_count =
      ((qualifying_pixels gray_frame).take max_features.toNat).map to_feature := by
  obtain ⟨hc, hlt, _⟩ := detect_features_spec gray_frame features max_features
  apply List.ext_getElem?
  intro i
  simp only [feature_list, List.getElem?_map, List.getElem?_take]
  by_cases hi : i < (detect_features gray_frame features max_features).feature_count
  · have h1 := hlt i hi
    rw [List.getElem?_map] at h1
    rw [List.getElem?_range hi, if_pos (by omega), h1]
    rfl
  · rw [List.getElem?_eq_none (by simpa using hi)]
    by_cases hm : i < max_features.toNat
    · rw [if_pos hm, List.getElem?_eq_none (by omega)]
      rfl
    · rw [if_neg hm]
      rfl

/-! ### C1 -/

/-- C1: with fewer than 5 matches `estimate_motion` sets `dx`, `dy`, `dz`, `roll`, `pitch`
and `yaw` to exactly 0, for every match list and every pair of feature arrays (whatever
the offsets between the matched coordinates). -/
theorem estimate_motion_few_matches_zero (atan2 : ℚ → ℚ → ℚ)
    (prev_features curr_features : Nat → feature_point_t) (matches_buf : Nat → Int)
    (match_count : Int) (vo_data : vo_data_t) (h : match_count < 5) :
    (estimate_motion atan2 prev_features curr_features matches_buf match_count vo_data).dx = 0 ∧
    (estimate_motion atan2 prev_features curr_features matches_buf match_count vo_data).dy = 0 ∧
    (estimate_motion atan2 prev_features curr_features matches_buf match_count vo_data).dz = 0 ∧
    (estimate_motion atan2 prev_features curr_features matches_buf match_count vo_data).roll = 0 ∧
    (estimate_motion atan2 prev_features curr_features matches_buf match_count vo_data).pitch = 0 ∧
    (estimate_motion atan2 prev_features curr_features matches_buf match_count vo_data).yaw = 0 := by
  have hn : ¬ match_count ≥ 5 := by omega
  simp [estimate_motion, hn]

/-- Witness for C1: four matches, each displaced by `(8, 8)`, still give the zero delta. -/
theorem estimate_motion_few_matches_zero_witness :
    (4 : Int) < 5 ∧
    (estimate_motion (fun _ _ => 1) (fun _ => ⟨1, 1⟩) (fun _ => ⟨9, 9⟩) (fun _ => 0) 4
      ⟨7, 7, 7, 7, 7, 7, 0⟩).dx = 0 ∧
    (estimate_motion (fun _ _ => 1) (fun _ => ⟨1, 1⟩) (fun _ => ⟨9, 9⟩) (fun _ => 0) 4
      ⟨7, 7, 7, 7, 7, 7, 0⟩).dy = 0 ∧
    (estimate_motion (fun _ _ => 1) (fun _ => ⟨1, 1⟩) (fun _ => ⟨9, 9⟩) (fun _ => 0) 4
      ⟨7, 7, 7, 7, 7, 7, 0⟩).dz = 0 ∧
    (estimate_motion (fun _ _ => 1) (fun _ => ⟨1, 1⟩) (fun _ => ⟨9, 9⟩) (fun _ => 0) 4
      ⟨7, 7, 7, 7, 7, 7, 0⟩).roll = 0 ∧
    (estimate_motion (fun _ _ => 1) (fun _ => ⟨1, 1⟩) (fun _ => ⟨9, 9⟩) (fun _ => 0) 4
      ⟨7, 7, 7, 7, 7, 7, 0⟩).pitch = 0 ∧
    (estimate_motion (fun _ _ => 1) (fun _ => ⟨1, 1⟩) (fun _ => ⟨9, 9⟩) (fun _ => 0) 4
      ⟨7, 7, 7, 7, 7, 7, 0⟩).yaw = 0 :=
  ⟨by decide, estimate_motion_few_matches_zero _ _ _ _ _ _ (by decide)⟩

/-! ### C2 -/

/-- C2: for every frame and every cap `max_features ≥ 0`, the count returned by
`detect_features` is at most `max_features`, and no entry of the feature array at an
index at or beyond the cap is written (it keeps the value it had before the call). -/
theorem detect_features_count_le_cap (gray_frame : Nat → Nat)
    (features : Nat → feature_point_t) (max_features : Int) (h : 0 ≤ max_features) :
    ((detect_features gray_frame features max_features).feature_count : Int) ≤ max_features ∧
    ∀ i : Nat, max_features ≤ (i : Int) →
      (detect_features gray_frame features max_features).features i = features i := by
  obtain ⟨hc, _, hge⟩ := detect_features_spec gray_frame features max_features
  refine ⟨by omega, ?_⟩
  intro i hi
  exact hge i (by omega)

/-- In the striped frame more than 50 pixels qualify. -/
theorem stripes_many_qualifying : 50 < (qualifying_pixels stripes_frame).length := by
  have hsub : ∀ p, p ∈ row_one_pixels → p ∈ qualifying_pixels stripes_frame := by
    intro p hp
    rw [mem_qualifying_pixels]
    revert p
    decide
  have hn : row_one_pixels.Nodup := by decide
  have := (List.subperm_of_subset hn hsub).length_le
  have hlen : row_one_pixels.length = 51 := by decide
  omega

/-- Witness for C2: the engine's cap 50 on the striped frame, in which more than 50
pixels qualify. -/
theorem detect_features_count_le_cap_witness :
    (0 : Int) ≤ 50 ∧
    50 < (qualifying_pixels stripes_frame).length ∧
    ((detect_features stripes_frame (fun _ => ⟨0, 0⟩) 50).feature_count : Int) ≤ 50 ∧
    ∀ i : Nat, (50 : Int) ≤ (i : Int) →
      (detect_features stripes_frame (fun _ => ⟨0, 0⟩) 50).features i = ⟨0, 0⟩ :=
  ⟨by decide, stripes_many_qualifying,
    detect_features_count_le_cap stripes_frame (fun _ => ⟨0, 0⟩) 50 (by decide)⟩

/-! ### C3 -/

/-- C3: for every frame and every cap, the feature list produced by `detect_features`
is exactly the first `min(max_features, n)` of the `n` qualifying pixels, where the
qualifying pixels are exactly the interior pixels (`1 ≤ x ≤ 78`, `1 ≤ y ≤ 58`) whose
intensity differs by more than 50 from one of the four axis neighbours, listed in raster
order; hence every listed feature is an interior, qualifying pixel. -/
theorem detect_features_raster_order (gray_frame : Nat → Nat)
    (features : Nat → feature_point_t) (max_features : Nat) :
    (detect_features gray_frame features max_features).feature_count =
        min max_features (qualifying_pixels gray_frame).length ∧
    feature_list (detect_features gray_frame features max_features).features
        (detect_features gray_frame features max_features).feature_count =
      ((qualifying_pixels gray_frame).take max_features).map to_feature ∧
    (∀ p : Nat × Nat, p ∈ qualifying_pixels gray_frame ↔
      (1 ≤ p.1 ∧ p.1 ≤ 78 ∧ 1 ≤ p.2 ∧ p.2 ≤ 58) ∧ spec_is_feature gray_frame p.1 p.2) ∧
    (qualifying_pixels gray_frame).Pairwise raster_lt ∧
    (∀ i, i < (detect_features gray_frame features max_features).feature_count →
      ∃ x y : Nat, (detect_features gray_frame features max_features).features i = ⟨x, y⟩ ∧
        (1 ≤ x ∧ x ≤ 78 ∧ 1 ≤ y ∧ y ≤ 58) ∧ spec_is_feature gray_frame x y) := by
  obtain ⟨hc, hlt, _⟩ := detect_features_spec gray_frame features max_features
  refine ⟨by simpa using hc, by simpa using detect_features_list gray_frame features max_features,
    mem_qualifying_pixels gray_frame, qualifying_pixels_pairwise gray_frame, ?_⟩
  intro i hi
  have h1 := hlt i hi
  rw [List.getElem?_map] at h1
  cases hq : (qualifying_pixels gray_frame)[i]? with
  | none => rw [hq] at h1; simp at h1
  | some p =>
    rw [hq] at h1
    simp only [Option.map_some', Option.some.injEq] at h1
    have hmem : p ∈ qualifying_pixels gray_frame := List.mem_iff_getElem?.2 ⟨i, hq⟩
    obtain ⟨hb, hs⟩ := (mem_qualifying_pixels gray_frame p).1 hmem
    exact ⟨p.1, p.2, h1.symm, hb, hs⟩

/-! ### C8 -/

/-- C8: on a frame whose 80 x 60 pixels all have the same intensity `detect_features`
returns 0 (for every cap and every initial content of the feature array). -/
theorem detect_features_uniform_zero (gray_frame : Nat → Nat)
    (features : Nat → feature_point_t) (max_features : Int) (c : Nat)
    (h : ∀ i, i < VO_IMAGE_WIDTH * VO_IMAGE_HEIGHT → gray_frame i = c) :
    (detect_features gray_frame features max_features).feature_count = 0 := by
  obtain ⟨hc, _, _⟩ := detect_features_spec gray_frame features max_features
  have hnil : qualifying_pixels gray_frame = [] := by
    rw [List.eq_nil_iff_forall_not_mem]
    intro p hp
    obtain ⟨⟨h1, h2, h3, h4⟩, n, hn, hgt⟩ := (mem_qualifying_pixels gray_frame p).1 hp
    have hbound : ∀ x y : Nat, x ≤ 79 → y ≤ 59 → intensity gray_frame x y = c := by
      intro x y hx hy
      unfold intensity
      rw [h (y * 80 + x) (by simp only [VO_IMAGE_WIDTH, VO_IMAGE_HEIGHT]; omega)]
    rw [hbound p.1 p.2 (by omega) (by omega)] at hgt
    simp only [List.mem_cons, List.mem_singleton, List.not_mem_nil, or_false] at hn
    rcases hn with rfl | rfl | rfl | rfl
    all_goals
      rw [hbound _ _ (by simp only; omega) (by simp only; omega)] at hgt
      simp at hgt
  rw [hc, hnil]
  simp

/-- Witness for C8: the all-128 frame. -/
theorem detect_features_uniform_zero_witness :
    (∀ i, i < VO_IMAGE_WIDTH * VO_IMAGE_HEIGHT → (fun _ : Nat => 128) i = 128) ∧
    (detect_features (fun _ => 128) (fun _ => ⟨0, 0⟩) 50).feature_count = 0 :=
  ⟨fun _ _ => rfl, detect_features_uniform_zero (fun _ => 128) _ 50 128 (fun _ _ => rfl)⟩

/-! ### Feature matching -/

theorem distance_sq_nonneg (c p : feature_point_t) : 0 ≤ distance_sq c p := by
  unfold distance_sq
  exact add_nonneg (mul_self_nonneg _) (mul_self_nonneg _)

theorem distance_sq_eq_zero {c p : feature_point_t} (h : distance_sq c p = 0) : c = p := by
  unfold distance_sq at h
  obtain ⟨cx, cy⟩ := c
  obtain ⟨px, py⟩ := p
  simp only at h
  have h1 : cx - px = 0 := by nlinarith [sq_nonneg (cx - px), sq_nonneg (cy - py)]
  have h2 : cy - py = 0 := by nlinarith [sq_nonneg (cx - px), sq_nonneg (cy - py)]
  have h3 : cx = px := by omega
  have h4 : cy = py := by omega
  rw [h3, h4]

theorem distance_sq_self (c : feature_point_t) : distance_sq c c = 0 := by
  simp [distance_sq]

/-- Loop invariant of the inner loop of `match_features` after the previous features
`0 .. m-1`: either none was closer than the threshold, or the state holds the lowest
index that attains the minimum squared distance. -/
theorem best_fold_invariant (prev_features : Nat → feature_point_t) (c : feature_point_t)
    (m : Nat) :
    (((List.range m).foldl (best_step prev_features c)
          ⟨-1, MIN_MATCH_DISTANCE_SQ⟩) = ⟨-1, 100⟩ ∧
        ∀ j, j < m → 100 ≤ distance_sq c (prev_features j)) ∨
      ∃ b : Nat, b < m ∧
        ((List.range m).foldl (best_step prev_features c)
          ⟨-1, MIN_MATCH_DISTANCE_SQ⟩) = ⟨b, distance_sq c (prev_features b)⟩ ∧
        distance_sq c (prev_features b) < 100 ∧
        (∀ j, j < m → distance_sq c (prev_features b) ≤ distance_sq c (prev_features j)) ∧
        ∀ j, j < b → distance_sq c (prev_features b) < distance_sq c (prev_features j) := by
  induction m with
  | zero =>
    left
    simp [MIN_MATCH_DISTANCE_SQ]
  | succ m ih =>
    rw [List.range_succ, List.foldl_append, List.foldl_cons, List.foldl_nil]
    rcases ih with ⟨hst, hall⟩ | ⟨b, hb, hst, hlt, hmin, hlow⟩
    · rw [hst]
      by_cases hd : distance_sq c (prev_features m) < 100
      · right
        refine ⟨m, by omega, by simp [best_step, hd], hd, ?_, ?_⟩
        · intro j hj
          rcases Nat.lt_succ_iff_lt_or_eq.1 hj with h | h
          · have := hall j h
            omega
          · rw [h]
        · intro j hj
          have := hall j hj
          omega
      · left
        refine ⟨by simp [best_step, hd], ?_⟩
        intro j hj
        rcases Nat.lt_succ_iff_lt_or_eq.1 hj with h | h
        · exact hall j h
        · rw [h]; omega
    · rw [hst]
      by_cases hd : distance_sq c (prev_features m) < distance_sq c (prev_features b)
      · right
        refine ⟨m, by omega, by simp [best_step, hd], by omega, ?_, ?_⟩
        · intro j hj
          rcases Nat.lt_succ_iff_lt_or_eq.1 hj with h | h
          · have := hmin j h
            omega
          · rw [h]
        · intro j hj
          have := hmin j hj
          omega
      · right
        refine ⟨b, by omega, by simp [best_step, hd], hlt, ?_, hlow⟩
        intro j hj
        rcases Nat.lt_succ_iff_lt_or_eq.1 hj with h | h
        · exact hmin j h
        · rw [h]; omega

/-- An unmatched current feature: every previous feature is at squared distance at least
100. -/
theorem best_match_eq_neg_one_iff (prev_features : Nat → feature_point_t) (prev_count : Int)
    (c : feature_point_t) :
    (best_match prev_features prev_count c).best_match_index = -1 ↔
      ∀ j : Nat, (j : Int) < prev_count → 100 ≤ distance_sq c (prev_features j) := by
  unfold best_match
  rcases best_fold_invariant prev_features c prev_count.toNat with
    ⟨hst, hall⟩ | ⟨b, hb, hst, hlt, _, _⟩
  · rw [hst]
    simp only [true_iff]
    intro j hj
    exact hall j (by omega)
  · rw [hst]
    constructor
    · intro h
      simp only at h
      omega
    · intro h
      have := h b (by omega)
      omega

/-- A matched current feature: the stored index is the lowest index of a previous
feature at minimum squared distance, and that distance is below 100. -/
theorem best_match_ne_neg_one (prev_features : Nat → feature_point_t) (prev_count : Int)
    (c : feature_point_t)
    (h : (best_match prev_features prev_count c).best_match_index ≠ -1) :
    ∃ b : Nat, (b : Int) < prev_count ∧
      (best_match prev_features prev_count c).best_match_index = b ∧
      distance_sq c (prev_features b) < 100 ∧
      (∀ j : Nat, (j : Int) < prev_count →
        distance_sq c (prev_features b) ≤ distance_sq c (prev_features j)) ∧
      ∀ j : Nat, j < b → distance_sq c (prev_features b) < distance_sq c (prev_features j) := by
  unfold best_match at h ⊢
  rcases best_fold_invariant prev_features c prev_count.toNat with
    ⟨hst, _⟩ | ⟨b, hb, hst, hlt, hmin, hlow⟩
  · rw [hst] at h
    exact absurd rfl h
  · rw [hst]
    exact ⟨b, by omega, rfl, hlt, fun j hj => hmin j (by omega), hlow⟩

theorem match_list_succ (prev_features : Nat → feature_point_t) (prev_count : Int)
    (curr_features : Nat → feature_point_t) (m : Nat) :
    match_list prev_features prev_count curr_features (m + 1) =
      match_list prev_features prev_count curr_features m ++
        (if (best_match prev_features prev_count (curr_features m)).best_match_index ≠ -1 then
          [((best_match prev_features prev_count (curr_features m)).best_match_index, (m : Int))]
        else []) := by
  unfold match_list
  rw [List.range_succ, List.filterMap_append]
  congr 1
  by_cases h : (best_match prev_features prev_count (curr_features m)).best_match_index = -1
  · simp [h]
  · simp [h]

theorem mem_match_list (prev_features : Nat → feature_point_t) (prev_count : Int)
    (curr_features : Nat → feature_point_t) (m : Nat) (p c : Int) :
    (p, c) ∈ match_list prev_features prev_count curr_features m ↔
      ∃ i : Nat, i < m ∧ c = i ∧ p ≠ -1 ∧
        (best_match prev_features prev_count (curr_features i)).best_match_index = p := by
  unfold match_list
  simp only [List.mem_filterMap, List.mem_range]
  constructor
  · rintro ⟨i, hi, h⟩
    by_cases hb : (best_match prev_features prev_count (curr_features i)).best_match_index = -1
    · simp [hb] at h
    · simp only [ne_eq, hb, not_false_eq_true, if_true, Option.some.injEq, Prod.mk.injEq] at h
      exact ⟨i, hi, h.2.symm, h.1 ▸ hb, h.1⟩
  · rintro ⟨i, hi, rfl, hp, hb⟩
    refine ⟨i, hi, ?_⟩
    rw [hb]
    simp [hp]

/-- Loop invariant of `match_features` after the current features `0 .. m-1`: the count
is the number of stored pairs, pair `t` occupies the slots `2t` and `2t+1`, and the slots
from `2 * match_count` on are untouched. -/
theorem match_fold_invariant (prev_features : Nat → feature_point_t) (prev_count : Int)
    (curr_features : Nat → feature_point_t) (matches_buf : Nat → Int) (m : Nat) :
    ((List.range m).foldl (match_step prev_features prev_count curr_features)
        ⟨matches_buf, 0⟩).match_count =
        (match_list prev_features prev_count curr_features m).length ∧
      (∀ t, t < ((List.range m).foldl (match_step prev_features prev_count curr_features)
          ⟨matches_buf, 0⟩).match_count →
        (match_list prev_features prev_count curr_features m)[t]? =
          some (((List.range m).foldl (match_step prev_features prev_count curr_features)
              ⟨matches_buf, 0⟩).matches_buf (t * 2),
            ((List.range m).foldl (match_step prev_features prev_count curr_features)
              ⟨matches_buf, 0⟩).matches_buf (t * 2 + 1))) ∧
      (∀ k, ((List.range m).foldl (match_step prev_features prev_count curr_features)
          ⟨matches_buf, 0⟩).match_count * 2 ≤ k →
        ((List.range m).foldl (match_step prev_features prev_count curr_features)
          ⟨matches_buf, 0⟩).matches_buf k = matches_buf k) := by
  induction m with
  | zero => simp [match_list]
  | succ m ih =>
    rw [List.range_succ, List.foldl_append, List.foldl_cons, List.foldl_nil, match_list_succ]
    obtain ⟨hc, hlt, hge⟩ := ih
    set r := (List.range m).foldl (match_step prev_features prev_count curr_features)
      ⟨matches_buf, 0⟩ with hr
    set q := match_list prev_features prev_count curr_features m with hq
    by_cases hb : (best_match prev_features prev_count (curr_features m)).best_match_index = -1
    · simp only [match_step, hb, ne_eq, not_true_eq_false, if_false, List.append_nil]
      exact ⟨hc, hlt, hge⟩
    · simp only [match_step, hb, ne_eq, not_false_eq_true, if_true, List.length_append,
        List.length_singleton]
      refine ⟨by omega, ?_, ?_⟩
      · intro t ht
        by_cases htq : t = r.match_count
        · subst htq
          rw [Function.update_same, Function.update_noteq (by omega), Function.update_same,
            hc, List.getElem?_append_right (le_refl _)]
          simp
        · rw [Function.update_noteq (by omega), Function.update_noteq (by omega),
            Function.update_noteq (by omega), Function.update_noteq (by omega),
            List.getElem?_append_left (by omega)]
          exact hlt t (by omega)
      · intro k hk
        rw [Function.update_noteq (by omega), Function.update_noteq (by omega)]
        exact hge k (by omega)

/-- The outcome of `match_features` in terms of the list of stored pairs. -/
theorem match_features_spec (prev_features : Nat → feature_point_t) (prev_count : Int)
    (curr_features : Nat → feature_point_t) (curr_count : Int) (matches_buf : Nat → Int) :
    (match_features prev_features prev_count curr_features curr_count matches_buf).match_count =
        (match_list prev_features prev_count curr_features curr_count.toNat).length ∧
      (∀ t, t < (match_features prev_features prev_count curr_features curr_count
          matches_buf).match_count →
        (match_list prev_features prev_count curr_features curr_count.toNat)[t]? =
          some ((match_features prev_features prev_count curr_features curr_count
              matches_buf).matches_buf (t * 2),
            (match_features prev_features prev_count curr_features curr_count
              matches_buf).matches_buf (t * 2 + 1))) ∧
      (∀ k, (match_features prev_features prev_count curr_features curr_count
          matches_buf).match_count * 2 ≤ k →
        (match_features prev_features prev_count curr_features curr_count
          matches_buf).matches_buf k = matches_buf k) :=
  match_fold_invariant prev_features prev_count curr_features matches_buf curr_count.toNat

theorem match_list_length_le (prev_features : Nat → feature_point_t) (prev_count : Int)
    (curr_features : Nat → feature_point_t) (m : Nat) :
    (match_list prev_features prev_count curr_features m).length ≤ m := by
  unfold match_list
  exact (List.length_filterMap_le _ _).trans (by simp)

/-! ### C4 -/

/-- C4: `match_features` stores a pair for the current feature `i` if and only if some
previous feature lies at squared distance strictly below 100 from it; and in every stored
pair the previous index is the lowest index attaining the minimum squared distance over
all previous features, that minimum being below 100.  (So a current feature whose nearest
previous feature is at squared distance 100 or more is left unmatched.) -/
theorem match_features_nearest_below_threshold (prev_features : Nat → feature_point_t)
    (prev_count : Int) (curr_features : Nat → feature_point_t) (curr_count : Int)
    (matches_buf : Nat → Int) :
    (∀ i : Nat, (i : Int) < curr_count →
      ((∃ t, t < (match_features prev_features prev_count curr_features curr_count
            matches_buf).match_count ∧
          (match_features prev_features prev_count curr_features curr_count
            matches_buf).matches_buf (t * 2 + 1) = i) ↔
        ∃ j : Nat, (j : Int) < prev_count ∧
          distance_sq (curr_features i) (prev_features j) < 100)) ∧
    (∀ t, t < (match_features prev_features prev_count curr_features curr_count
        matches_buf).match_count →
      ∃ i b : Nat, (i : Int) < curr_count ∧ (b : Int) < prev_count ∧
        (match_features prev_features prev_count curr_features curr_count
          matches_buf).matches_buf (t * 2 + 1) = i ∧
        (match_features prev_features prev_count curr_features curr_count
          matches_buf).matches_buf (t * 2) = b ∧
        distance_sq (curr_features i) (prev_features b) < 100 ∧
        (∀ j : Nat, (j : Int) < prev_count →
          distance_sq (curr_features i) (prev_features b) ≤
            distance_sq (curr_features i) (prev_features j)) ∧
        ∀ j : Nat, j < b →
          distance_sq (curr_features i) (prev_features b) <
            distance_sq (curr_features i) (prev_features j)) := by
  obtain ⟨hc, hlt, _⟩ :=
    match_features_spec prev_features prev_count curr_features curr_count matches_buf
  constructor
  · intro i hi
    constructor
    · rintro ⟨t, ht, hti⟩
      have hmem := List.mem_iff_getElem?.2 ⟨t, hlt t ht⟩
      rw [hti, mem_match_list] at hmem
      obtain ⟨i', _, hii, hne, hbest⟩ := hmem
      have hii' : i = i' := by exact_mod_cast hii
      subst hii'
      by_contra hcon
      push_neg at hcon
      have := (best_match_eq_neg_one_iff prev_features prev_count (curr_features i)).2 hcon
      exact hne (hbest ▸ this)
    · rintro ⟨j, hj, hd⟩
      have hne : (best_match prev_features prev_count (curr_features i)).best_match_index ≠ -1 := by
        intro h
        have := (best_match_eq_neg_one_iff prev_features prev_count (curr_features i)).1 h j hj
        omega
      have hmem : ((best_match prev_features prev_count (curr_features i)).best_match_index,
          (i : Int)) ∈ match_list prev_features prev_count curr_features curr_count.toNat :=
        (mem_match_list _ _ _ _ _ _).2 ⟨i, by omega, rfl, hne, rfl⟩
      obtain ⟨t, ht⟩ := List.mem_iff_getElem?.1 hmem
      have htl : t < (match_list prev_features prev_count curr_features
          curr_count.toNat).length := (List.getElem?_eq_some.1 ht).1
      have h2 := hlt t (by omega)
      rw [ht] at h2
      simp only [Option.some.injEq, Prod.mk.injEq] at h2
      exact ⟨t, by omega, h2.2.symm⟩
  · intro t ht
    have hmem := List.mem_iff_getElem?.2 ⟨t, hlt t ht⟩
    rw [mem_match_list] at hmem
    obtain ⟨i, hi, hii, hne, hbest⟩ := hmem
    obtain ⟨b, hb, hbi, hd, hmin, hlow⟩ :=
      best_match_ne_neg_one prev_features prev_count (curr_features i) (hbest ▸ hne)
    exact ⟨i, b, by omega, hb, hii, hbest ▸ hbi, hd, hmin, hlow⟩

/-! ### C5 -/

/-- C5, as stated, fails: one previous feature `(1, 10)` and two current features
`(1, 10)`, `(1, 11)` give two matches, more than `min(1, 2) = 1`. -/
theorem match_count_exceeds_min_counts :
    ¬ ((match_features (fun _ => ⟨1, 10⟩) 1 (fun i => ⟨1, 10 + i⟩) 2
      (fun _ => 0)).match_count ≤ min 1 2) := by
  decide

/-- C5, amended: for `curr_count ≥ 0` the match sequence returned by `match_features` has
at most `curr_count` entries, and it is empty when there is no previous feature. -/
theorem match_count_le_curr_count (prev_features : Nat → feature_point_t)
    (prev_count : Int) (curr_features : Nat → feature_point_t) (curr_count : Int)
    (matches_buf : Nat → Int) (h : 0 ≤ curr_count) :
    ((match_features prev_features prev_count curr_features curr_count
        matches_buf).match_count : Int) ≤ curr_count ∧
    (prev_count ≤ 0 →
      (match_features prev_features prev_count curr_features curr_count
        matches_buf).match_count = 0) := by
  obtain ⟨hc, _, _⟩ :=
    match_features_spec prev_features prev_count curr_features curr_count matches_buf
  have hle := match_list_length_le prev_features prev_count curr_features curr_count.toNat
  refine ⟨by omega, ?_⟩
  intro hp
  rw [hc, List.length_eq_zero, List.eq_nil_iff_forall_not_mem]
  rintro ⟨p, c⟩ hmem
  rw [mem_match_list] at hmem
  obtain ⟨i, _, _, hne, hbest⟩ := hmem
  have := (best_match_eq_neg_one_iff prev_features prev_count (curr_features i)).2
    (fun j hj => by omega)
  exact hne (hbest ▸ this)

/-- Witness for C5 (amended): the two current features of the counterexample. -/
theorem match_count_le_curr_count_witness :
    (0 : Int) ≤ 2 ∧
    ((match_features (fun _ => ⟨1, 10⟩) 1 (fun i => ⟨1, 10 + i⟩) 2
        (fun _ => 0)).match_count : Int) ≤ 2 ∧
    ((1 : Int) ≤ 0 →
      (match_features (fun _ => ⟨1, 10⟩) 1 (fun i => ⟨1, 10 + i⟩) 2
        (fun _ => 0)).match_count = 0) :=
  ⟨by decide, match_count_le_curr_count _ 1 _ 2 _ (by decide)⟩

/-! ### Motion estimation -/

/-- The accumulators of `estimate_motion` after the matches `0 .. n-1` are the sums of the
coordinate differences and of the bearing differences. -/
theorem motion_fold_sums (atan2 : ℚ → ℚ → ℚ)
    (prev_features curr_features : Nat → feature_point_t) (matches_buf : Nat → Int) (n : Nat) :
    ((List.range n).foldl (motion_step atan2 prev_features curr_features matches_buf)
        ⟨0, 0, 0⟩).avg_dx =
      ∑ i ∈ Finset.range n,
        (((curr_features (matches_buf (i * 2 + 1)).toNat).x -
          (prev_features (matches_buf (i * 2)).toNat).x : Int) : ℚ) ∧
    ((List.range n).foldl (motion_step atan2 prev_features curr_features matches_buf)
        ⟨0, 0, 0⟩).avg_dy =
      ∑ i ∈ Finset.range n,
        (((curr_features (matches_buf (i * 2 + 1)).toNat).y -
          (prev_features (matches_buf (i * 2)).toNat).y : Int) : ℚ) ∧
    ((List.range n).foldl (motion_step atan2 prev_features curr_features matches_buf)
        ⟨0, 0, 0⟩).avg_rotation =
      ∑ i ∈ Finset.range n,
        (atan2 ((curr_features (matches_buf (i * 2 + 1)).toNat).y - (VO_IMAGE_HEIGHT : ℚ) / 2)
            ((curr_features (matches_buf (i * 2 + 1)).toNat).x - (VO_IMAGE_WIDTH : ℚ) / 2) -
          atan2 ((prev_features (matches_buf (i * 2)).toNat).y - (VO_IMAGE_HEIGHT : ℚ) / 2)
            ((prev_features (matches_buf (i * 2)).toNat).x - (VO_IMAGE_WIDTH : ℚ) / 2)) := by
  induction n with
  | zero => simp
  | succ n ih =>
    obtain ⟨h1, h2, h3⟩ := ih
    rw [List.range_succ, List.foldl_append, List.foldl_cons, List.foldl_nil]
    simp only [Finset.sum_range_succ]
    refine ⟨?_, ?_, ?_⟩
    · rw [← h1]; rfl
    · rw [← h2]; rfl
    · rw [← h3]; rfl

/-! ### C7 -/

/-- C7: with `match_count = n ≥ 5` and a match list whose entries are valid (natural
number) indices, match `i` pairing previous feature `pidx i` with current feature
`cidx i`, `estimate_motion` sets `dx` to the arithmetic mean of `current.x - previous.x`
over all matches, `dy` to the arithmetic mean of `current.y - previous.y`, and `dz`, `roll`
and `pitch` to 0. -/
theorem estimate_motion_mean_translation (atan2 : ℚ → ℚ → ℚ)
    (prev_features curr_features : Nat → feature_point_t) (matches_buf : Nat → Int)
    (n : Nat) (vo_data : vo_data_t) (pidx cidx : Nat → Nat) (h5 : 5 ≤ n)
    (hidx : ∀ i, i < n → matches_buf (i * 2) = pidx i ∧ matches_buf (i * 2 + 1) = cidx i) :
    (estimate_motion atan2 prev_features curr_features matches_buf n vo_data).dx =
      (∑ i ∈ Finset.range n,
        (((curr_features (cidx i)).x - (prev_features (pidx i)).x : Int) : ℚ)) / n ∧
    (estimate_motion atan2 prev_features curr_features matches_buf n vo_data).dy =
      (∑ i ∈ Finset.range n,
        (((curr_features (cidx i)).y - (prev_features (pidx i)).y : Int) : ℚ)) / n ∧
    (estimate_motion atan2 prev_features curr_features matches_buf n vo_data).dz = 0 ∧
    (estimate_motion atan2 prev_features curr_features matches_buf n vo_data).roll = 0 ∧
    (estimate_motion atan2 prev_features curr_features matches_buf n vo_data).pitch = 0 := by
  have hge : ((n : Int) ≥ 5) := by omega
  obtain ⟨h1, h2, _⟩ := motion_fold_sums atan2 prev_features curr_features matches_buf n
  have hx : ∑ i ∈ Finset.range n,
        (((curr_features (matches_buf (i * 2 + 1)).toNat).x -
          (prev_features (matches_buf (i * 2)).toNat).x : Int) : ℚ) =
      ∑ i ∈ Finset.range n,
        (((curr_features (cidx i)).x - (prev_features (pidx i)).x : Int) : ℚ) := by
    apply Finset.sum_congr rfl
    intro i hi
    obtain ⟨hp, hc⟩ := hidx i (Finset.mem_range.1 hi)
    rw [hp, hc, Int.toNat_natCast, Int.toNat_natCast]
  have hy : ∑ i ∈ Finset.range n,
        (((curr_features (matches_buf (i * 2 + 1)).toNat).y -
          (prev_features (matches_buf (i * 2)).toNat).y : Int) : ℚ) =
      ∑ i ∈ Finset.range n,
        (((curr_features (cidx i)).y - (prev_features (pidx i)).y : Int) : ℚ) := by
    apply Finset.sum_congr rfl
    intro i hi
    obtain ⟨hp, hc⟩ := hidx i (Finset.mem_range.1 hi)
    rw [hp, hc, Int.toNat_natCast, Int.toNat_natCast]
  rw [← hx, ← hy, ← h1, ← h2]
  simp [estimate_motion, hge]

/-- Witness for C7: five matches `(i, i)`, previous feature `i` at `(i, 2i)`, current
feature `i` at `(i + 3, 3i)`: the mean of the `x` offsets is 3, that of the `y` offsets
`(0 + 1 + 2 + 3 + 4) / 5 = 2`. -/
theorem estimate_motion_mean_translation_witness :
    5 ≤ 5 ∧
    (∀ i : Nat, i < 5 → (fun k : Nat => ((k / 2 : Nat) : Int)) (i * 2) = (fun i => i) i ∧
      (fun k : Nat => ((k / 2 : Nat) : Int)) (i * 2 + 1) = (fun i => i) i) ∧
    (estimate_motion (fun _ _ => 0) (fun j => ⟨j, 2 * j⟩) (fun j => ⟨j + 3, 3 * j⟩)
      (fun k => ((k / 2 : Nat) : Int)) (5 : Nat) ⟨9, 9, 9, 9, 9, 9, 0⟩).dx = 3 ∧
    (estimate_motion (fun _ _ => 0) (fun j => ⟨j, 2 * j⟩) (fun j => ⟨j + 3, 3 * j⟩)
      (fun k => ((k / 2 : Nat) : Int)) (5 : Nat) ⟨9, 9, 9, 9, 9, 9, 0⟩).dy = 2 ∧
    (estimate_motion (fun _ _ => 0) (fun j => ⟨j, 2 * j⟩) (fun j => ⟨j + 3, 3 * j⟩)
      (fun k => ((k / 2 : Nat) : Int)) (5 : Nat) ⟨9, 9, 9, 9, 9, 9, 0⟩).dz = 0 ∧
    (estimate_motion (fun _ _ => 0) (fun j => ⟨j, 2 * j⟩) (fun j => ⟨j + 3, 3 * j⟩)
      (fun k => ((k / 2 : Nat) : Int)) (5 : Nat) ⟨9, 9, 9, 9, 9, 9, 0⟩).roll = 0 ∧
    (estimate_motion (fun _ _ => 0) (fun j => ⟨j, 2 * j⟩) (fun j => ⟨j + 3, 3 * j⟩)
      (fun k => ((k / 2 : Nat) : Int)) (5 : Nat) ⟨9, 9, 9, 9, 9, 9, 0⟩).pitch = 0 := by
  have hidx : ∀ i : Nat, i < 5 →
      (fun k : Nat => ((k / 2 : Nat) : Int)) (i * 2) = (fun i => i) i ∧
      (fun k : Nat => ((k / 2 : Nat) : Int)) (i * 2 + 1) = (fun i => i) i :=
    fun i _ => ⟨by simp, by simp only [Nat.cast_inj]; omega⟩
  obtain ⟨hx, hy, hz, hr, hp⟩ := estimate_motion_mean_translation (fun _ _ => 0)
    (fun j => ⟨j, 2 * j⟩) (fun j => ⟨j + 3, 3 * j⟩) (fun k => ((k / 2 : Nat) : Int)) 5
    ⟨9, 9, 9, 9, 9, 9, 0⟩ (fun i => i) (fun i => i) (le_refl 5) hidx
  refine ⟨le_refl 5, hidx, ?_, ?_, hz, hr, hp⟩
  · rw [hx]
    norm_num [Finset.sum_range_succ]
  · rw [hy]
    norm_num [Finset.sum_range_succ]

/-! ### Identical consecutive frames -/

theorem to_feature_injective : Function.Injective to_feature := by
  rintro ⟨x₁, y₁⟩ ⟨x₂, y₂⟩ h
  simp only [to_feature, feature_point_t.mk.injEq, Nat.cast_inj] at h
  rw [h.1, h.2]

theorem qualifying_features_nodup (gray_frame : Nat → Nat) :
    ((qualifying_pixels gray_frame).map to_feature).Nodup := by
  apply List.Nodup.map to_feature_injective
  refine (qualifying_pixels_pairwise gray_frame).imp ?_
  rintro ⟨x₁, y₁⟩ ⟨x₂, y₂⟩ hlt heq
  simp only [Prod.mk.injEq] at heq
  rcases hlt with h | ⟨_, h⟩
  · exact absurd heq.2 (Nat.ne_of_lt h)
  · exact absurd heq.1 (Nat.ne_of_lt h)

/-- Two runs of `detect_features` on the same frame give the same count and the same
features below the count, whatever the output arrays held before. -/
theorem detect_features_same_frame (gray_frame : Nat → Nat)
    (features₁ features₂ : Nat → feature_point_t) (max_features : Int) :
    (detect_features gray_frame features₂ max_features).feature_count =
        (detect_features gray_frame features₁ max_features).feature_count ∧
      ∀ i, i < (detect_features gray_frame features₁ max_features).feature_count →
        (detect_features gray_frame features₂ max_features).features i =
          (detect_features gray_frame features₁ max_features).features i := by
  obtain ⟨hc₁, hlt₁, _⟩ := detect_features_spec gray_frame features₁ max_features
  obtain ⟨hc₂, hlt₂, _⟩ := detect_features_spec gray_frame features₂ max_features
  refine ⟨by omega, ?_⟩
  intro i hi
  have h₁ := hlt₁ i hi
  have h₂ := hlt₂ i (by omega)
  rw [h₁] at h₂
  exact (Option.some.inj h₂).symm

/-- The features written by `detect_features` are pairwise distinct. -/
theorem detect_features_distinct (gray_frame : Nat → Nat)
    (features : Nat → feature_point_t) (max_features : Int) (i j : Nat)
    (hi : i < (detect_features gray_frame features max_features).feature_count)
    (hj : j < (detect_features gray_frame features max_features).feature_count)
    (h : (detect_features gray_frame features max_features).features i =
      (detect_features gray_frame features max_features).features j) : i = j := by
  obtain ⟨hc, hlt, _⟩ := detect_features_spec gray_frame features max_features
  have h₁ := hlt i hi
  have h₂ := hlt j hj
  rw [← h] at h₂
  have hlen : i < ((qualifying_pixels gray_frame).map to_feature).length := by
    rw [List.length_map]; omega
  exact List.getElem?_inj hlen (qualifying_features_nodup gray_frame) (h₁.trans h₂.symm)

/-- If every current feature `i < m` is matched to the previous feature `i`, the stored
pairs are `(0, 0), (1, 1), ..., (m-1, m-1)`. -/
theorem match_list_diagonal (prev_features : Nat → feature_point_t) (prev_count : Int)
    (curr_features : Nat → feature_point_t) (m : Nat)
    (h : ∀ i, i < m →
      (best_match prev_features prev_count (curr_features i)).best_match_index = i) :
    match_list prev_features prev_count curr_features m =
      (List.range m).map fun i : Nat => ((i : Int), (i : Int)) := by
  induction m with
  | zero => rfl
  | succ m ih =>
    rw [match_list_succ, ih (fun i hi => h i (by omega)), List.range_succ, List.map_append,
      h m (by omega)]
    have hne : ((m : Int) ≠ -1) := by omega
    simp [hne]

/-- Matching a detected feature list against itself pairs every feature with itself. -/
theorem best_match_self (gray_frame : Nat → Nat) (features₁ features₂ : Nat → feature_point_t)
    (max_features : Int) (i : Nat)
    (hi : i < (detect_features gray_frame features₁ max_features).feature_count) :
    (best_match (detect_features gray_frame features₁ max_features).features
      (detect_features gray_frame features₁ max_features).feature_count
      ((detect_features gray_frame features₂ max_features).features i)).best_match_index = i := by
  obtain ⟨_, hsame⟩ := detect_features_same_frame gray_frame features₁ features₂ max_features
  rw [hsame i hi]
  have hne : (best_match (detect_features gray_frame features₁ max_features).features
      (detect_features gray_frame features₁ max_features).feature_count
      ((detect_features gray_frame features₁ max_features).features i)).best_match_index ≠ -1 := by
    intro hcon
    have := (best_match_eq_neg_one_iff _ _ _).1 hcon i (by exact_mod_cast hi)
    rw [distance_sq_self] at this
    omega
  obtain ⟨b, hb, hbi, _, hmin, _⟩ := best_match_ne_neg_one _ _ _ hne
  have h0 := hmin i (by exact_mod_cast hi)
  rw [distance_sq_self] at h0
  have hz := le_antisymm h0 (distance_sq_nonneg _ _)
  have heq := distance_sq_eq_zero hz
  have hbi' : i = b :=
    detect_features_distinct gray_frame features₁ max_features i b hi (by exact_mod_cast hb) heq
  rw [hbi, hbi']

/-! ### C6 -/

/-- C6: for two identical consecutive frames (previous and current feature lists both
produced by `detect_features` on the same frame), `match_features` pairs every current
feature `i` with previous feature `i` at squared distance 0, so `match_count` equals the
feature count; and when that count is at least 5, `estimate_motion` yields
`dx = dy = dz = roll = pitch = yaw = 0`. -/
theorem identical_frames_zero_motion (atan2 : ℚ → ℚ → ℚ) (gray_frame : Nat → Nat)
    (features₁ features₂ : Nat → feature_point_t) (max_features : Int)
    (matches_buf : Nat → Int) (vo_data : vo_data_t) :
    let P := detect_features gray_frame features₁ max_features
    let C := detect_features gray_frame features₂ max_features
    let M := match_features P.features P.feature_count C.features C.feature_count matches_buf
    C.feature_count = P.feature_count ∧
    M.match_count = C.feature_count ∧
    (∀ i, i < C.feature_count →
      M.matches_buf (i * 2) = i ∧ M.matches_buf (i * 2 + 1) = i ∧
        distance_sq (C.features i) (P.features i) = 0) ∧
    (5 ≤ C.feature_count →
      (estimate_motion atan2 P.features C.features M.matches_buf M.match_count vo_data).dx = 0 ∧
      (estimate_motion atan2 P.features C.features M.matches_buf M.match_count vo_data).dy = 0 ∧
      (estimate_motion atan2 P.features C.features M.matches_buf M.match_count vo_data).dz = 0 ∧
      (estimate_motion atan2 P.features C.features M.matches_buf M.match_count vo_data).roll = 0 ∧
      (estimate_motion atan2 P.features C.features M.matches_buf M.match_count vo_data).pitch = 0 ∧
      (estimate_motion atan2 P.features C.features M.matches_buf M.match_count vo_data).yaw = 0) := by
  intro P C M
  obtain ⟨hcnt, hfeat⟩ := detect_features_same_frame gray_frame features₁ features₂ max_features
  have hdiag : match_list P.features P.feature_count C.features C.feature_count =
      (List.range C.feature_count).map fun i : Nat => ((i : Int), (i : Int)) :=
    match_list_diagonal _ _ _ _ fun i hi =>
      best_match_self gray_frame features₁ features₂ max_features i (hcnt ▸ hi)
  obtain ⟨hc, hlt, _⟩ :=
    match_features_spec P.features P.feature_count C.features C.feature_count matches_buf
  rw [Int.toNat_natCast, hdiag] at hc hlt
  rw [List.length_map, List.length_range] at hc
  have hpair : ∀ i, i < C.feature_count →
      M.matches_buf (i * 2) = i ∧ M.matches_buf (i * 2 + 1) = i := by
    intro i hi
    have h := hlt i (hc.symm ▸ hi)
    rw [List.getElem?_map, List.getElem?_range hi] at h
    simp only [Option.map_some', Option.some.injEq, Prod.mk.injEq] at h
    exact ⟨h.1.symm, h.2.symm⟩
  have hfeat' : ∀ i, i < C.feature_count → C.features i = P.features i :=
    fun i hi => hfeat i (hcnt ▸ hi)
  refine ⟨hcnt, hc, ?_, ?_⟩
  · intro i hi
    refine ⟨(hpair i hi).1, (hpair i hi).2, ?_⟩
    rw [hfeat' i hi, distance_sq_self]
  · intro h5
    have hge : ((M.match_count : Int) ≥ 5) := by
      have : M.match_count = C.feature_count := hc
      omega
    obtain ⟨h1, h2, h3⟩ :=
      motion_fold_sums atan2 P.features C.features M.matches_buf M.match_count
    have hterm : ∀ i, i ∈ Finset.range M.match_count →
        C.features (M.matches_buf (i * 2 + 1)).toNat =
          P.features (M.matches_buf (i * 2)).toNat := by
      intro i hi
      have hi' : i < C.feature_count := by
        have := Finset.mem_range.1 hi
        have : M.match_count = C.feature_count := hc
        omega
      rw [(hpair i hi').1, (hpair i hi').2, Int.toNat_natCast]
      exact hfeat' i hi'
    have hx : ((List.range M.match_count).foldl
        (motion_step atan2 P.features C.features M.matches_buf) ⟨0, 0, 0⟩).avg_dx = 0 := by
      rw [h1]
      apply Finset.sum_eq_zero
      intro i hi
      rw [hterm i hi]
      simp
    have hy : ((List.range M.match_count).foldl
        (motion_step atan2 P.features C.features M.matches_buf) ⟨0, 0, 0⟩).avg_dy = 0 := by
      rw [h2]
      apply Finset.sum_eq_zero
      intro i hi
      rw [hterm i hi]
      simp
    have hr : ((List.range M.match_count).foldl
        (motion_step atan2 P.features C.features M.matches_buf) ⟨0, 0, 0⟩).avg_rotation = 0 := by
      rw [h3]
      apply Finset.sum_eq_zero
      intro i hi
      rw [hterm i hi]
      simp
    simp [estimate_motion, hge, hx, hy, hr]

/-- Witness for C6: the striped frame twice, with the engine's cap 50 and different
initial contents of the two feature arrays. -/
theorem identical_frames_zero_motion_witness :
    5 ≤ (detect_features stripes_frame (fun _ => ⟨0, 0⟩) 50).feature_count ∧
    (match_features (detect_features stripes_frame (fun _ => ⟨7, 7⟩) 50).features
      (detect_features stripes_frame (fun _ => ⟨7, 7⟩) 50).feature_count
      (detect_features stripes_frame (fun _ => ⟨0, 0⟩) 50).features
      (detect_features stripes_frame (fun _ => ⟨0, 0⟩) 50).feature_count
      (fun _ => 0)).match_count =
        (detect_features stripes_frame (fun _ => ⟨0, 0⟩) 50).feature_count ∧
    (estimate_motion (fun _ _ => 1)
      (detect_features stripes_frame (fun _ => ⟨7, 7⟩) 50).features
      (detect_features stripes_frame (fun _ => ⟨0, 0⟩) 50).features
      (match_features (detect_features stripes_frame (fun _ => ⟨7, 7⟩) 50).features
        (detect_features stripes_frame (fun _ => ⟨7, 7⟩) 50).feature_count
        (detect_features stripes_frame (fun _ => ⟨0, 0⟩) 50).features
        (detect_features stripes_frame (fun _ => ⟨0, 0⟩) 50).feature_count
        (fun _ => 0)).matches_buf
      (match_features (detect_features stripes_frame (fun _ => ⟨7, 7⟩) 50).features
        (detect_features stripes_frame (fun _ => ⟨7, 7⟩) 50).feature_count
        (detect_features stripes_frame (fun _ => ⟨0, 0⟩) 50).features
        (detect_features stripes_frame (fun _ => ⟨0, 0⟩) 50).feature_count
        (fun _ => 0)).match_count
      ⟨9, 9, 9, 9, 9, 9, 0⟩).yaw = 0 := by
  have h5 : 5 ≤ (detect_features stripes_frame (fun _ => ⟨0, 0⟩) 50).feature_count := by
    have hc := (detect_features_spec stripes_frame (fun _ => ⟨0, 0⟩) 50).1
    have hq := stripes_many_qualifying
    have h50 : (50 : Int).toNat = 50 := rfl
    omega
  have h := identical_frames_zero_motion (fun _ _ => 1) stripes_frame (fun _ => ⟨7, 7⟩)
    (fun _ => ⟨0, 0⟩) 50 (fun _ => 0) ⟨9, 9, 9, 9, 9, 9, 0⟩
  exact ⟨h5, h.2.1, (h.2.2.2 h5).2.2.2.2.2⟩

/-! ### Ultrasonic ranging -/

/-- More fuel does not change the outcome of a polling loop that finished. -/
theorem echo_wait_loop_fuel_mono (w : World) (echo_pin : Nat) (level deadline : Int)
    (n : Nat) : ∀ (fuel k : Nat) (r : Bool × Nat),
      echo_wait_loop w echo_pin level deadline fuel k = some r →
        echo_wait_loop w echo_pin level deadline (fuel + n) k = some r := by
  intro fuel
  induction fuel with
  | zero => intro k r h; simp [echo_wait_loop] at h
  | succ fuel ih =>
    intro k r h
    rw [Nat.add_right_comm]
    unfold echo_wait_loop at h ⊢
    by_cases hl : w.gpio_get_level echo_pin k = level
    · by_cases ht : w.esp_timer_get_time (k + 1) > deadline
      · simpa [hl, ht] using h
      · simp only [hl, ht, if_true, if_false] at h ⊢
        exact ih _ _ h
    · simpa [hl] using h

/-- A polling loop returns `false` once the line has kept the awaited level at every poll
up to one at which the clock has passed the deadline. -/
theorem echo_wait_loop_timeout (w : World) (echo_pin : Nat) (level deadline : Int) :
    ∀ (m fuel k : Nat), m < fuel →
      (∀ j, j ≤ m → w.gpio_get_level echo_pin (k + 2 * j) = level) →
      w.esp_timer_get_time (k + 2 * m + 1) > deadline →
      ∃ k', echo_wait_loop w echo_pin level deadline fuel k = some (false, k') := by
  intro m
  induction m with
  | zero =>
    intro fuel k hf hl ht
    obtain ⟨fuel, rfl⟩ : ∃ f, fuel = f + 1 := ⟨fuel - 1, by omega⟩
    have h0 := hl 0 (le_refl 0)
    simp only [Nat.mul_zero, Nat.add_zero] at h0 ht
    exact ⟨k + 2, by simp [echo_wait_loop, h0, ht]⟩
  | succ m ih =>
    intro fuel k hf hl ht
    obtain ⟨fuel, rfl⟩ : ∃ f, fuel = f + 1 := ⟨fuel - 1, by omega⟩
    have h0 := hl 0 (Nat.zero_le _)
    simp only [Nat.mul_zero, Nat.add_zero] at h0
    by_cases hnow : w.esp_timer_get_time (k + 1) > deadline
    · exact ⟨k + 2, by simp [echo_wait_loop, h0, hnow]⟩
    · obtain ⟨k', hk'⟩ := ih fuel (k + 2) (by omega)
        (fun j hj => by
          have := hl (j + 1) (by omega)
          rwa [show k + 2 * (j + 1) = k + 2 + 2 * j by ring] at this)
        (by rwa [show k + 2 * (m + 1) + 1 = k + 2 + 2 * m + 1 by ring] at ht)
      exact ⟨k', by simp [echo_wait_loop, h0, hnow, hk']⟩

theorem clock_monotone (w : World) (h : clock_advances w) (a b : Nat) (hab : a ≤ b) :
    w.esp_timer_get_time a ≤ w.esp_timer_get_time b := by
  induction b with
  | zero =>
    have : a = 0 := by omega
    rw [this]
  | succ b ih =>
    rcases Nat.lt_or_ge a (b + 1) with hlt | hge
    · exact (ih (by omega)).trans (h.1 b)
    · have : a = b + 1 := by omega
      rw [this]

/-- With a clock that advances, a polling loop finishes once the fuel covers the tick at
which the clock has passed the deadline. -/
theorem echo_wait_loop_finishes (w : World) (h : clock_advances w) (echo_pin : Nat)
    (level deadline : Int) (K : Nat) (hK : deadline < w.esp_timer_get_time K) :
    ∀ (fuel k : Nat), K ≤ k + 2 * fuel + 1 →
      ∃ r, echo_wait_loop w echo_pin level deadline (fuel + 1) k = some r := by
  intro fuel
  induction fuel with
  | zero =>
    intro k hk
    unfold echo_wait_loop
    by_cases hl : w.gpio_get_level echo_pin k = level
    · have ht : w.esp_timer_get_time (k + 1) > deadline :=
        lt_of_lt_of_le hK (clock_monotone w h K (k + 1) (by omega))
      exact ⟨(false, k + 2), by simp [hl, ht]⟩
    · exact ⟨(true, k + 1), by simp [hl]⟩
  | succ fuel ih =>
    intro k hk
    unfold echo_wait_loop
    by_cases hl : w.gpio_get_level echo_pin k = level
    · by_cases ht : w.esp_timer_get_time (k + 1) > deadline
      · exact ⟨(false, k + 2), by simp [hl, ht]⟩
      · obtain ⟨r, hr⟩ := ih (k + 2) (by omega)
        exact ⟨r, by simp only [hl, ht, if_true, if_false]; exact hr⟩
    · exact ⟨(true, k + 1), by simp [hl]⟩

/-- With a clock that advances, every polling loop has a result that no longer depends
on the fuel once there is enough of it. -/
theorem echo_wait_loop_total (w : World) (h : clock_advances w) (echo_pin : Nat)
    (level deadline : Int) (k : Nat) :
    ∃ (fuel₀ : Nat) (r : Bool × Nat), ∀ fuel, fuel₀ ≤ fuel →
      echo_wait_loop w echo_pin level deadline fuel k = some r := by
  obtain ⟨K, hK⟩ := h.2 deadline
  obtain ⟨r, hr⟩ := echo_wait_loop_finishes w h echo_pin level deadline K hK K k (by omega)
  refine ⟨K + 1, r, ?_⟩
  intro fuel hf
  have := echo_wait_loop_fuel_mono w echo_pin level deadline (fuel - (K + 1)) (K + 1) k r hr
  rwa [show K + 1 + (fuel - (K + 1)) = fuel by omega] at this

/-- With a clock that advances, `get_sensor_reading` returns, and its result no longer
depends on the fuel once there is enough of it. -/
theorem get_sensor_reading_total (w : World) (h : clock_advances w)
    (sensor : ultrasonic_sensor_config_t) (k : Nat) :
    ∃ (fuel₀ : Nat) (r : Option ℚ × Nat), ∀ fuel, fuel₀ ≤ fuel →
      get_sensor_reading w fuel sensor k = some r := by
  obtain ⟨f₁, ⟨b₁, k₁⟩, h₁⟩ := echo_wait_loop_total w h sensor.echo_pin 0
    (w.esp_timer_get_time k + 10000) (k + 1)
  cases b₁ with
  | false =>
    refine ⟨f₁, (none, k₁), ?_⟩
    intro fuel hf
    simp [get_sensor_reading, h₁ fuel hf]
  | true =>
    obtain ⟨f₂, ⟨b₂, k₂⟩, h₂⟩ := echo_wait_loop_total w h sensor.echo_pin 1
      ((w.esp_timer_get_time k + 10000) * 2) (k₁ + 1)
    cases b₂ with
    | false =>
      refine ⟨max f₁ f₂, (none, k₂), ?_⟩
      intro fuel hf
      simp [get_sensor_reading, h₁ fuel (le_of_max_le_left hf), h₂ fuel (le_of_max_le_right hf)]
    | true =>
      refine ⟨max f₁ f₂, (some (((w.esp_timer_get_time k₂ - w.esp_timer_get_time k₁ : Int) : ℚ) *
        (343 / 10000) / 2), k₂ + 1), ?_⟩
      intro fuel hf
      simp [get_sensor_reading, h₁ fuel (le_of_max_le_left hf), h₂ fuel (le_of_max_le_right hf)]

/-- The loop body for one sensor hands exactly one item to the queue, with the id of that
sensor. -/
theorem sweep_sensor_sent (w : World) (fuel : Nat) (st st' : SweepState)
    (sensor : ultrasonic_sensor_config_t) (h : sweep_sensor w fuel st sensor = some st') :
    ∃ d : ultrasonic_data_t, st'.sent = st.sent ++ [d] ∧ d.id = sensor.id := by
  unfold sweep_sensor at h
  cases hr : get_sensor_reading w fuel sensor st.tick with
  | none => simp [hr] at h
  | some r =>
    obtain ⟨o, k⟩ := r
    cases o with
    | none =>
      simp only [hr, Option.some.injEq] at h
      exact ⟨_, by rw [← h], rfl⟩
    | some distance =>
      simp only [hr, Option.some.injEq] at h
      exact ⟨_, by rw [← h], rfl⟩

theorem sweep_sensor_total (w : World) (h : clock_advances w)
    (sensor : ultrasonic_sensor_config_t) (st : SweepState) :
    ∃ (fuel₀ : Nat) (st' : SweepState), ∀ fuel, fuel₀ ≤ fuel →
      sweep_sensor w fuel st sensor = some st' := by
  obtain ⟨f, ⟨o, k⟩, hr⟩ := get_sensor_reading_total w h sensor st.tick
  cases o with
  | none =>
    exact ⟨f, ⟨k + 1, st.sent ++ [⟨-1, timestamp_ms_of (w.esp_timer_get_time k), sensor.id⟩]⟩,
      fun fuel hf => by simp only [sweep_sensor, hr fuel hf]⟩
  | some distance =>
    exact ⟨f, ⟨k + 1,
        st.sent ++ [⟨distance, timestamp_ms_of (w.esp_timer_get_time k), sensor.id⟩]⟩,
      fun fuel hf => by simp only [sweep_sensor, hr fuel hf]⟩

/-- A sweep over a list of sensors hands to the queue one item per sensor, in the order
of the list. -/
theorem sweep_list_sent (w : World) (fuel : Nat) :
    ∀ (l : List ultrasonic_sensor_config_t) (st st' : SweepState),
      sweep_list w fuel l st = some st' →
      ∃ rs : List ultrasonic_data_t, st'.sent = st.sent ++ rs ∧
        rs.map (fun d => d.id) = l.map (fun c => c.id) := by
  intro l
  induction l with
  | nil =>
    intro st st' h
    simp only [sweep_list, Option.some.injEq] at h
    exact ⟨[], by simp [h], rfl⟩
  | cons sensor rest ih =>
    intro st st' h
    unfold sweep_list at h
    cases h₁ : sweep_sensor w fuel st sensor with
    | none => simp [h₁] at h
    | some st₁ =>
      simp only [h₁] at h
      obtain ⟨d, hd, hid⟩ := sweep_sensor_sent w fuel st st₁ sensor h₁
      obtain ⟨rs, hrs, hids⟩ := ih st₁ st' h
      exact ⟨d :: rs, by rw [hrs, hd, List.append_assoc, List.singleton_append],
        by simp [hid, hids]⟩

theorem sweep_list_total (w : World) (h : clock_advances w) :
    ∀ (l : List ultrasonic_sensor_config_t) (st : SweepState),
      ∃ (fuel₀ : Nat) (st' : SweepState), ∀ fuel, fuel₀ ≤ fuel →
        sweep_list w fuel l st = some st' := by
  intro l
  induction l with
  | nil => intro st; exact ⟨0, st, fun _ _ => rfl⟩
  | cons sensor rest ih =>
    intro st
    obtain ⟨f₁, st₁, h₁⟩ := sweep_sensor_total w h sensor st
    obtain ⟨f₂, st₂, h₂⟩ := ih st₁
    refine ⟨max f₁ f₂, st₂, ?_⟩
    intro fuel hf
    simp only [sweep_list, h₁ fuel (le_of_max_le_left hf)]
    exact h₂ fuel (le_of_max_le_right hf)

/-! ### C9 -/

/-- C9: when `get_sensor_reading` succeeds, the reported distance is `d * 343 / 20000`
(that is `d * 0.0343 / 2`), where the echo duration `d` is the clock value read after the
echo line fell minus the clock value read after it rose.  (This holds for every `d`, in
particular for `0 ≤ d < 20000`.) -/
theorem get_sensor_reading_distance (w : World) (fuel : Nat)
    (sensor : ultrasonic_sensor_config_t) (k k' : Nat) (distance : ℚ)
    (h : get_sensor_reading w fuel sensor k = some (some distance, k')) :
    ∃ (k₁ k₂ : Nat) (d : Int),
      echo_wait_loop w sensor.echo_pin 0 (w.esp_timer_get_time k + 10000) fuel (k + 1) =
        some (true, k₁) ∧
      echo_wait_loop w sensor.echo_pin 1 ((w.esp_timer_get_time k + 10000) * 2) fuel (k₁ + 1) =
        some (true, k₂) ∧
      d = w.esp_timer_get_time k₂ - w.esp_timer_get_time k₁ ∧
      distance = (d : ℚ) * 343 / 20000 := by
  unfold get_sensor_reading at h
  cases h₁ : echo_wait_loop w sensor.echo_pin 0 (w.esp_timer_get_time k + 10000) fuel (k + 1) with
  | none => simp [h₁] at h
  | some r₁ =>
    obtain ⟨b₁, k₁⟩ := r₁
    cases b₁ with
    | false => simp [h₁] at h
    | true =>
      simp only [h₁] at h
      cases h₂ : echo_wait_loop w sensor.echo_pin 1 ((w.esp_timer_get_time k + 10000) * 2) fuel
          (k₁ + 1) with
      | none => simp [h₂] at h
      | some r₂ =>
        obtain ⟨b₂, k₂⟩ := r₂
        cases b₂ with
        | false => simp [h₂] at h
        | true =>
          simp only [h₂, Option.some.injEq, Prod.mk.injEq] at h
          refine ⟨k₁, k₂, _, rfl, h₂, rfl, ?_⟩
          rw [← h.1]
          push_cast
          ring

/-- Witness for C9: a clock that advances 100 microseconds per read, an echo line that is
high from tick 3 up to tick 12; the measured duration is 1000 microseconds and the
reported distance is 343/20 = 17.15 cm. -/
theorem get_sensor_reading_distance_witness :
    get_sensor_reading ⟨fun k => 100 * k, fun _ t => if 3 ≤ t ∧ t < 13 then 1 else 0⟩ 10
        ⟨16, 17, .SENSOR_FORWARD⟩ 0 = some (some (343 / 20), 15) ∧
    ∃ (k₁ k₂ : Nat) (d : Int),
      echo_wait_loop ⟨fun k => 100 * k, fun _ t => if 3 ≤ t ∧ t < 13 then 1 else 0⟩ 17 0
          ((100 * (0 : Nat) : Int) + 10000) 10 (0 + 1) = some (true, k₁) ∧
      echo_wait_loop ⟨fun k => 100 * k, fun _ t => if 3 ≤ t ∧ t < 13 then 1 else 0⟩ 17 1
          (((100 * (0 : Nat) : Int) + 10000) * 2) 10 (k₁ + 1) = some (true, k₂) ∧
      d = (100 * (k₂ : Nat) : Int) - (100 * (k₁ : Nat) : Int) ∧
      (343 / 20 : ℚ) = (d : ℚ) * 343 / 20000 := by
  have h : get_sensor_reading ⟨fun k => 100 * k, fun _ t => if 3 ≤ t ∧ t < 13 then 1 else 0⟩ 10
      ⟨16, 17, .SENSOR_FORWARD⟩ 0 = some (some (343 / 20), 15) := by
    norm_num [get_sensor_reading, echo_wait_loop]
  exact ⟨h, get_sensor_reading_distance _ _ _ _ _ _ h⟩

/-! ### C10 -/

/-- C10: (1) for every sensor configuration (in particular every row of the table), if
the echo line is low at every poll up to a poll at which the clock reads more than
10000 microseconds after the measurement start, `get_sensor_reading` reports failure and
the loop body of `ultrasonic_task` hands to the queue a reading with `distance_cm = -1`
and that sensor's id, and goes on; (2) a sweep that finishes has handed to the queue
exactly one reading per row of the table, in table order; (3) with a monotonic clock
that advances without bound, the sweep does finish, given enough fuel. -/
theorem rise_timeout_publishes_sentinel :
    (∀ (w : World) (sensor : ultrasonic_sensor_config_t) (fuel k m : Nat)
        (sent : List ultrasonic_data_t),
      m < fuel →
      (∀ j, j ≤ m → w.gpio_get_level sensor.echo_pin (k + 1 + 2 * j) = 0) →
      w.esp_timer_get_time (k + 1 + 2 * m + 1) > w.esp_timer_get_time k + 10000 →
      ∃ k', get_sensor_reading w fuel sensor k = some (none, k') ∧
        sweep_sensor w fuel ⟨k, sent⟩ sensor =
          some ⟨k' + 1,
            sent ++ [⟨-1, timestamp_ms_of (w.esp_timer_get_time k'), sensor.id⟩]⟩) ∧
    (∀ (w : World) (fuel : Nat) (st st' : SweepState),
      ultrasonic_task_sweep w fuel st = some st' →
      ∃ rs : List ultrasonic_data_t, st'.sent = st.sent ++ rs ∧
        rs.map (fun d => d.id) = sensors.map (fun c => c.id) ∧ rs.length = 7) ∧
    (∀ (w : World), clock_advances w → ∀ st : SweepState,
      ∃ (fuel₀ : Nat) (st' : SweepState), ∀ fuel, fuel₀ ≤ fuel →
        ultrasonic_task_sweep w fuel st = some st') := by
  refine ⟨?_, ?_, ?_⟩
  · intro w sensor fuel k m sent hm hlow hclock
    obtain ⟨k', hk'⟩ := echo_wait_loop_timeout w sensor.echo_pin 0
      (w.esp_timer_get_time k + 10000) m fuel (k + 1) hm hlow hclock
    have hg : get_sensor_reading w fuel sensor k = some (none, k') := by
      simp [get_sensor_reading, hk']
    exact ⟨k', hg, by simp only [sweep_sensor, hg]⟩
  · intro w fuel st st' h
    obtain ⟨rs, hrs, hids⟩ := sweep_list_sent w fuel _ st st' h
    have hlen : rs.length = 7 := by
      have := congrArg List.length hids
      simpa [sensors, NUM_SENSORS] using this
    exact ⟨rs, hrs, by simpa [sensors, NUM_SENSORS] using hids, hlen⟩
  · intro w h st
    exact sweep_list_total w h _ st

/-- Witness for C10: a clock that advances 3000 microseconds per read and an echo line
that never rises; the downward sensor (pins 32, 35) times out at the second poll. -/
theorem rise_timeout_publishes_sentinel_witness :
    ∃ k', get_sensor_reading ⟨fun k => 3000 * k, fun _ _ => 0⟩ 10 ⟨32, 35, .SENSOR_DOWNWARD⟩ 0 =
        some (none, k') ∧
      sweep_sensor ⟨fun k => 3000 * k, fun _ _ => 0⟩ 10 ⟨0, []⟩ ⟨32, 35, .SENSOR_DOWNWARD⟩ =
        some ⟨k' + 1, [] ++ [⟨-1, timestamp_ms_of ((3000 * (k' : Nat) : Int)),
          .SENSOR_DOWNWARD⟩]⟩ :=
  rise_timeout_publishes_sentinel.1 ⟨fun k => 3000 * k, fun _ _ => 0⟩
    ⟨32, 35, .SENSOR_DOWNWARD⟩ 10 0 1 [] (by decide) (fun _ _ => rfl) (by decide)

/-! ### C11 -/

/-- C11 (the code at the failing input): with the measurement started at clock value
50000 and an echo line that stays high, the clock read at tick 22 is already more than
20000 microseconds after the start, yet `get_sensor_reading` goes on polling and returns
`false` only after the read at tick 72, when the clock shows 122000 > 2 * (50000 + 10000);
with the deadline `start + 20000` the same loop would have returned after the read at
tick 22. -/
theorem fall_deadline_is_twice_the_rise_deadline :
    stuck_high_world.esp_timer_get_time 0 = 50000 ∧
    stuck_high_world.esp_timer_get_time 22 > 50000 + 20000 ∧
    stuck_high_world.esp_timer_get_time 72 = 122000 ∧
    get_sensor_reading stuck_high_world 40 ⟨16, 17, .SENSOR_FORWARD⟩ 0 = some (none, 73) ∧
    echo_wait_loop stuck_high_world 17 1 (50000 + 20000) 40 3 = some (false, 23) := by
  refine ⟨by decide, by decide, by decide, ?_, ?_⟩
  · norm_num [get_sensor_reading, echo_wait_loop, stuck_high_world]
  · norm_num [echo_wait_loop, stuck_high_world]

/-! ### Sweeps described by their durations -/

/-- The function `get_sensor_reading` converts the duration it measures. -/
theorem get_sensor_reading_eq_duration (w : World) (fuel : Nat)
    (sensor : ultrasonic_sensor_config_t) (k : Nat) :
    get_sensor_reading w fuel sensor k =
      (echo_duration_us w fuel sensor k).map fun r =>
        (r.1.map fun d : Int => (d : ℚ) * (343 / 10000) / 2, r.2) := by
  simp only [get_sensor_reading, echo_duration_us]
  cases h₁ : echo_wait_loop w sensor.echo_pin 0 (w.esp_timer_get_time k + 10000) fuel (k + 1) with
  | none => simp
  | some r₁ =>
    obtain ⟨b₁, k₁⟩ := r₁
    cases b₁ with
    | false => simp
    | true =>
      simp only
      cases h₂ : echo_wait_loop w sensor.echo_pin 1 ((w.esp_timer_get_time k + 10000) * 2) fuel
          (k₁ + 1) with
      | none => simp
      | some r₂ =>
        obtain ⟨b₂, k₂⟩ := r₂
        cases b₂ with
        | false => simp
        | true => simp

/-- The loop body for one sensor publishes the converted duration, or the sentinel. -/
theorem sweep_sensor_of_duration (w : World) (fuel : Nat) (st : SweepState)
    (sensor : ultrasonic_sensor_config_t) (d : Option Int) (k' : Nat)
    (h : echo_duration_us w fuel sensor st.tick = some (d, k')) :
    sweep_sensor w fuel st sensor =
      some ⟨k' + 1, st.sent ++
        [⟨published_distance d, timestamp_ms_of (w.esp_timer_get_time k'), sensor.id⟩]⟩ := by
  unfold sweep_sensor
  rw [get_sensor_reading_eq_duration, h]
  cases d with
  | none => rfl
  | some d =>
    have hconv : (d : ℚ) * (343 / 10000) / 2 = (d : ℚ) * 343 / 20000 := by ring
    simp only [Option.map_some', published_distance, hconv]

/-- A sweep that measures the durations `ds` finishes and publishes one reading per sensor,
in order, with the converted durations and the sensors' ids. -/
theorem sweep_list_of_durations (w : World) (fuel : Nat) :
    ∀ (l : List ultrasonic_sensor_config_t) (st : SweepState) (ds : List (Option Int)),
      sweep_durations w fuel l st.tick = some ds →
      ∃ (st' : SweepState) (rs : List ultrasonic_data_t),
        sweep_list w fuel l st = some st' ∧ st'.sent = st.sent ++ rs ∧
        rs.map (fun r => r.distance_cm) = ds.map published_distance ∧
        rs.map (fun r => r.id) = l.map (fun c => c.id) := by
  intro l
  induction l with
  | nil =>
    intro st ds h
    simp only [sweep_durations, Option.some.injEq] at h
    exact ⟨st, [], rfl, by simp, by simp [← h], rfl⟩
  | cons sensor rest ih =>
    intro st ds h
    unfold sweep_durations at h
    cases h₁ : echo_duration_us w fuel sensor st.tick with
    | none => simp [h₁] at h
    | some r =>
      obtain ⟨d, k'⟩ := r
      simp only [h₁] at h
      cases h₂ : sweep_durations w fuel rest (k' + 1) with
      | none => simp [h₂] at h
      | some ds' =>
        simp only [h₂, Option.some.injEq] at h
        have hs := sweep_sensor_of_duration w fuel st sensor d k' h₁
        obtain ⟨st', rs, hsw, hsent, hdist, hids⟩ := ih
          ⟨k' + 1, st.sent ++
            [⟨published_distance d, timestamp_ms_of (w.esp_timer_get_time k'), sensor.id⟩]⟩
          ds' h₂
        refine ⟨st', ⟨published_distance d, timestamp_ms_of (w.esp_timer_get_time k'),
          sensor.id⟩ :: rs, ?_, ?_, ?_, ?_⟩
        · simp only [sweep_list, hs]
          exact hsw
        · rw [hsent]
          simp
        · rw [← h]
          simp [hdist]
        · simp [hids]

/-- The sweep of `scenario_world` measures 200, 300, 400, 500 and 600 microseconds, a
timeout on the downward sensor, and 700 microseconds. -/
theorem scenario_world_durations :
    sweep_durations scenario_world 5 (sensors.take NUM_SENSORS) 0 =
      some [some 200, some 300, some 400, some 500, some 600, none, some 700] := by
  decide

/-! ### C12 -/

/-- C12, as stated, fails: in the sweep of `scenario_world` (downward sensor timed out,
the others measuring 200 .. 700 microseconds) no published reading has the distance
12.01; the reading for 700 microseconds is 12.005. -/
theorem scenario_sweep_has_no_12_01 :
    sweep_durations scenario_world 5 (sensors.take NUM_SENSORS) 0 =
      some [some 200, some 300, some 400, some 500, some 600, none, some 700] ∧
    ¬ ∃ st' : SweepState, ultrasonic_task_sweep scenario_world 5 ⟨0, []⟩ = some st' ∧
      (1201 / 100 : ℚ) ∈ st'.sent.map (fun r => r.distance_cm) := by
  refine ⟨scenario_world_durations, ?_⟩
  rintro ⟨st', hsw, hmem⟩
  obtain ⟨st'', rs, hsw', hsent, hdist, _⟩ :=
    sweep_list_of_durations scenario_world 5 (sensors.take NUM_SENSORS) ⟨0, []⟩ _
      scenario_world_durations
  unfold ultrasonic_task_sweep at hsw
  rw [hsw'] at hsw
  have hst : st'' = st' := Option.some.inj hsw
  rw [← hst, hsent, List.nil_append, hdist] at hmem
  norm_num [published_distance] at hmem

/-- C12, amended: in a sweep over the 7 configured sensors in which the downward sensor
times out and the other six measure 200, 300, 400, 500, 600 and 700 microseconds, the
sweep finishes and publishes, in table order, six readings with the distances 3.43,
5.145, 6.86, 8.575, 10.29 and 12.005 cm and, for the downward sensor, one reading with the
distance -1; the seven readings carry the seven pairwise distinct ids of the table. -/
theorem scenario_sweep_distances (w : World) (fuel : Nat) (st : SweepState)
    (h : sweep_durations w fuel (sensors.take NUM_SENSORS) st.tick =
      some [some 200, some 300, some 400, some 500, some 600, none, some 700]) :
    ∃ (st' : SweepState) (rs : List ultrasonic_data_t),
      ultrasonic_task_sweep w fuel st = some st' ∧ st'.sent = st.sent ++ rs ∧
      rs.map (fun r => r.distance_cm) =
        [343 / 100, 5145 / 1000, 686 / 100, 8575 / 1000, 1029 / 100, -1, 12005 / 1000] ∧
      rs.map (fun r => r.id) =
        [.SENSOR_FORWARD, .SENSOR_BACKWARD, .SENSOR_LEFT, .SENSOR_RIGHT, .SENSOR_UPWARD,
          .SENSOR_DOWNWARD, .SENSOR_DOWNWARD_FORWARD] ∧
      (rs.map (fun r => r.id)).Nodup := by
  obtain ⟨st', rs, hsw, hsent, hdist, hids⟩ :=
    sweep_list_of_durations w fuel (sensors.take NUM_SENSORS) st _ h
  have hids' : rs.map (fun r => r.id) =
      [.SENSOR_FORWARD, .SENSOR_BACKWARD, .SENSOR_LEFT, .SENSOR_RIGHT, .SENSOR_UPWARD,
        .SENSOR_DOWNWARD, .SENSOR_DOWNWARD_FORWARD] := by
    rw [hids]
    rfl
  refine ⟨st', rs, hsw, hsent, ?_, hids', ?_⟩
  · rw [hdist]
    norm_num [published_distance]
  · rw [hids']
    decide

/-- Witness for C12 (amended): the sweep of `scenario_world` from tick 0. -/
theorem scenario_sweep_distances_witness :
    sweep_durations scenario_world 5 (sensors.take NUM_SENSORS) 0 =
      some [some 200, some 300, some 400, some 500, some 600, none, some 700] ∧
    ∃ (st' : SweepState) (rs : List ultrasonic_data_t),
      ultrasonic_task_sweep scenario_world 5 ⟨0, []⟩ = some st' ∧ st'.sent = [] ++ rs ∧
      rs.map (fun r => r.distance_cm) =
        [343 / 100, 5145 / 1000, 686 / 100, 8575 / 1000, 1029 / 100, -1, 12005 / 1000] ∧
      rs.map (fun r => r.id) =
        [.SENSOR_FORWARD, .SENSOR_BACKWARD, .SENSOR_LEFT, .SENSOR_RIGHT, .SENSOR_UPWARD,
          .SENSOR_DOWNWARD, .SENSOR_DOWNWARD_FORWARD] ∧
      (rs.map (fun r => r.id)).Nodup :=
  ⟨scenario_world_durations,
    scenario_sweep_distances scenario_world 5 ⟨0, []⟩ scenario_world_durations⟩

/-! ### Frame preprocessing -/

/-- Nearest-pixel sampling stays inside the source: `floor(i * n / m) < n` for `i < m`. -/
theorem sample_index_lt (i n m : Nat) (hn : 1 ≤ n) (hi : i < m) : i * n / m < n := by
  have hm : 0 < m := by omega
  rw [Nat.div_lt_iff_lt_mul hm]
  nlinarith

/-- For a non-empty image and a working pixel inside the frame the bounds guard holds, so
the loop body is a plain store. -/
theorem downsample_pixel_eq_update (img : DecodedImage) (hW : 1 ≤ img.width)
    (hH : 1 ≤ img.height) (gray_frame : Nat → Nat) (x y : Nat) (hx : x < 80) (hy : y < 60) :
    downsample_pixel img y gray_frame x =
      Function.update gray_frame (y * 80 + x)
        (img.decoded_buffer (y * img.height / 60 * img.width + x * img.width / 80)) := by
  have h1 := sample_index_lt x img.width 80 hW hx
  have h2 := sample_index_lt y img.height 60 hH hy
  simp [downsample_pixel, VO_IMAGE_WIDTH, VO_IMAGE_HEIGHT, h1, h2]

/-- Loop invariant of the downsampling over any list of working pixels inside the frame:
every pixel of the list holds its sample, every other index is untouched. -/
theorem downsample_fold_invariant (img : DecodedImage) (hW : 1 ≤ img.width)
    (hH : 1 ≤ img.height) (gray_frame : Nat → Nat) (l : List (Nat × Nat))
    (hl : ∀ p, p ∈ l → p.1 < 80 ∧ p.2 < 60) :
    (∀ p, p ∈ l →
      (l.foldl (fun g p => downsample_pixel img p.2 g p.1) gray_frame) (p.2 * 80 + p.1) =
        img.decoded_buffer (p.2 * img.height / 60 * img.width + p.1 * img.width / 80)) ∧
    (∀ k, (∀ p, p ∈ l → p.2 * 80 + p.1 ≠ k) →
      (l.foldl (fun g p => downsample_pixel img p.2 g p.1) gray_frame) k = gray_frame k) := by
  induction l using List.reverseRecOn with
  | nil => simp
  | append_singleton l q ih =>
    have hq := hl q (by simp)
    obtain ⟨ih₁, ih₂⟩ := ih (fun p hp => hl p (by simp [hp]))
    simp only [List.foldl_append, List.foldl_cons, List.foldl_nil]
    rw [downsample_pixel_eq_update img hW hH _ q.1 q.2 hq.1 hq.2]
    constructor
    · intro p hp
      have hpb := hl p hp
      by_cases hk : p.2 * 80 + p.1 = q.2 * 80 + q.1
      · have h1 : p.1 = q.1 := by omega
        have h2 : p.2 = q.2 := by omega
        rw [hk, Function.update_same, h1, h2]
      · rw [Function.update_noteq hk]
        rcases List.mem_append.1 hp with hp' | hp'
        · exact ih₁ p hp'
        · simp only [List.mem_singleton] at hp'
          rw [hp'] at hk
          exact absurd rfl hk
    · intro k hk
      rw [Function.update_noteq (fun h => hk q (by simp) h.symm)]
      exact ih₂ k (fun p hp => hk p (by simp [hp]))

/-- The downsampling loops as one fold over the working pixels. -/
theorem decode_eq_fold (img : DecodedImage) (gray_frame : Nat → Nat) :
    decode_jpeg_to_grayscale (some img) gray_frame =
      some (((List.range 60).flatMap fun y => (List.range 80).map fun x => (x, y)).foldl
        (fun g p => downsample_pixel img p.2 g p.1) gray_frame) := by
  have h := foldl_nested_eq (fun g y x => downsample_pixel img y g x) (List.range 80)
    (List.range 60) gray_frame
  simp only [decode_jpeg_to_grayscale, VO_IMAGE_HEIGHT, VO_IMAGE_WIDTH, downsample_row,
    Option.some.injEq]
  exact h

/-- The working frame after a successful decode of a non-empty image. -/
theorem decode_pixel (img : DecodedImage) (hW : 1 ≤ img.width) (hH : 1 ≤ img.height)
    (gray_frame g' : Nat → Nat) (h : decode_jpeg_to_grayscale (some img) gray_frame = some g')
    (x y : Nat) (hx : x < 80) (hy : y < 60) :
    g' (y * 80 + x) =
      img.decoded_buffer (y * img.height / 60 * img.width + x * img.width / 80) := by
  rw [decode_eq_fold] at h
  have hg := Option.some.inj h
  have hmem : ∀ p : Nat × Nat,
      p ∈ ((List.range 60).flatMap fun y => (List.range 80).map fun x => (x, y)) →
        p.1 < 80 ∧ p.2 < 60 := by
    rintro ⟨a, b⟩ hp
    simp only [List.mem_flatMap, List.mem_map, List.mem_range, Prod.mk.injEq] at hp
    obtain ⟨b', hb', a', ha', rfl, rfl⟩ := hp
    exact ⟨ha', hb'⟩
  have hxy : (x, y) ∈ ((List.range 60).flatMap fun y => (List.range 80).map fun x => (x, y)) := by
    simp only [List.mem_flatMap, List.mem_map, List.mem_range, Prod.mk.injEq]
    exact ⟨y, hy, x, hx, rfl, rfl⟩
  rw [← hg]
  exact (downsample_fold_invariant img hW hH gray_frame _ hmem).1 (x, y) hxy

/-- An 80 x 60 image is copied unchanged. -/
theorem decode_same_size (img : DecodedImage) (hW : img.width = 80) (hH : img.height = 60)
    (gray_frame g' : Nat → Nat) (h : decode_jpeg_to_grayscale (some img) gray_frame = some g')
    (i : Nat) (hi : i < 4800) : g' i = img.decoded_buffer i := by
  have hp := decode_pixel img (by omega) (by omega) gray_frame g' h (i % 80) (i / 80)
    (Nat.mod_lt _ (by omega)) (by omega)
  have hidx : i / 80 * 80 + i % 80 = i := by omega
  rw [hidx, hW, hH, Nat.mul_div_cancel _ (by omega : 0 < 60),
    Nat.mul_div_cancel _ (by omega : 0 < 80), hidx] at hp
  exact hp

/-! ### C16 -/

/-- C16: for every decoded image of width `W ≥ 1` and height `H ≥ 1` the downsampling of
`decode_jpeg_to_grayscale` assigns every working pixel: for `x < 80`, `y < 60` the source
column `floor(x * W / 80)` is `< W`, the source row `floor(y * H / 60)` is `< H`, the
source index is `< W * H`, and pixel `(x, y)` of the working frame receives the decoded
pixel at that column and row; for `W = 80`, `H = 60` the working frame equals the decoded
image. -/
theorem downsample_assigns_every_pixel (img : DecodedImage) (gray_frame : Nat → Nat)
    (hW : 1 ≤ img.width) (hH : 1 ≤ img.height) :
    ∃ g' : Nat → Nat, decode_jpeg_to_grayscale (some img) gray_frame = some g' ∧
      (∀ x y, x < 80 → y < 60 →
        x * img.width / 80 < img.width ∧ y * img.height / 60 < img.height ∧
        y * img.height / 60 * img.width + x * img.width / 80 < img.width * img.height ∧
        g' (y * 80 + x) =
          img.decoded_buffer (y * img.height / 60 * img.width + x * img.width / 80)) ∧
      (img.width = 80 → img.height = 60 → ∀ i, i < 4800 → g' i = img.decoded_buffer i) := by
  obtain ⟨g', hg'⟩ : ∃ g', decode_jpeg_to_grayscale (some img) gray_frame = some g' :=
    ⟨_, rfl⟩
  refine ⟨g', hg', ?_, ?_⟩
  · intro x y hx hy
    have h1 := sample_index_lt x img.width 80 hW hx
    have h2 := sample_index_lt y img.height 60 hH hy
    refine ⟨h1, h2, ?_, decode_pixel img hW hH gray_frame g' hg' x y hx hy⟩
    calc y * img.height / 60 * img.width + x * img.width / 80
        < y * img.height / 60 * img.width + img.width := by omega
      _ = (y * img.height / 60 + 1) * img.width := by ring
      _ ≤ img.height * img.width := Nat.mul_le_mul_right _ h2
      _ = img.width * img.height := Nat.mul_comm _ _
  · intro hW' hH' i hi
    exact decode_same_size img hW' hH' gray_frame g' hg' i hi

/-- Witness for C16: a 160 x 120 image whose pixel at index `i` has the value `i % 256`. -/
theorem downsample_assigns_every_pixel_witness :
    1 ≤ (⟨160, 120, fun i => i % 256⟩ : DecodedImage).width ∧
    1 ≤ (⟨160, 120, fun i => i % 256⟩ : DecodedImage).height ∧
    ∃ g' : Nat → Nat,
      decode_jpeg_to_grayscale (some ⟨160, 120, fun i => i % 256⟩) (fun _ => 0) = some g' ∧
      (∀ x y, x < 80 → y < 60 →
        x * 160 / 80 < 160 ∧ y * 120 / 60 < 120 ∧
        y * 120 / 60 * 160 + x * 160 / 80 < 160 * 120 ∧
        g' (y * 80 + x) = (fun i => i % 256) (y * 120 / 60 * 160 + x * 160 / 80)) ∧
      ((160 : Nat) = 80 → (120 : Nat) = 60 → ∀ i, i < 4800 → g' i = (fun i => i % 256) i) :=
  ⟨by decide, by decide,
    downsample_assigns_every_pixel ⟨160, 120, fun i => i % 256⟩ (fun _ => 0) (by decide)
      (by decide)⟩

/-! ### The odometry cycle -/

/-- A cycle whose frame was acquired and decoded, field by field. -/
theorem vo_cycle_decoded (atan2 : ℚ → ℚ → ℚ) (now : Int) (img : DecodedImage) (st : VOState)
    (g' : Nat → Nat) (h : decode_jpeg_to_grayscale (some img) st.current_gray_frame = some g') :
    visual_odometry_cycle atan2 now (some (some img)) st =
      { prev_gray_frame := memcpy st.prev_gray_frame g' 4800
        current_gray_frame := g'
        prev_features := memcpy st.prev_features (detect_features g' st.curr_features 50).features
          (detect_features g' st.curr_features 50).feature_count
        curr_features := (detect_features g' st.curr_features 50).features
        matches_buf := (vo_match_and_send atan2 now st
          (detect_features g' st.curr_features 50).features
          (detect_features g' st.curr_features 50).feature_count).1
        prev_feature_count := (detect_features g' st.curr_features 50).feature_count
        events := (vo_match_and_send atan2 now st
          (detect_features g' st.curr_features 50).features
          (detect_features g' st.curr_features 50).feature_count).2 } := by
  simp only [visual_odometry_cycle, h, VO_IMAGE_WIDTH, VO_IMAGE_HEIGHT]

/-- With no previous feature the cycle neither matches nor estimates nor sends. -/
theorem vo_match_and_send_cold (atan2 : ℚ → ℚ → ℚ) (now : Int) (st : VOState)
    (curr_features : Nat → feature_point_t) (current_feature_count : Int)
    (h : st.prev_feature_count = 0) :
    vo_match_and_send atan2 now st curr_features current_feature_count =
      (st.matches_buf, st.events) := by
  simp [vo_match_and_send, h]

/-- With previous and current features but fewer than 5 matches the cycle only logs the
warning. -/
theorem vo_match_and_send_insufficient (atan2 : ℚ → ℚ → ℚ) (now : Int) (st : VOState)
    (curr_features : Nat → feature_point_t) (current_feature_count : Int)
    (hp : 0 < st.prev_feature_count) (hc : 0 < current_feature_count)
    (hm : (match_features st.prev_features st.prev_feature_count curr_features
      current_feature_count st.matches_buf).match_count < 5) :
    (vo_match_and_send atan2 now st curr_features current_feature_count).2 =
      st.events ++ [vo_event.warn_insufficient_matches] := by
  have hm' : ¬ ((match_features st.prev_features st.prev_feature_count curr_features
      current_feature_count st.matches_buf).match_count : Int) ≥ 5 := by omega
  simp [vo_match_and_send, hp, hc, hm']

theorem queue_sends_append_warn (events : List vo_event) :
    queue_sends (events ++ [vo_event.warn_insufficient_matches]) = queue_sends events := by
  simp [queue_sends]

theorem qualifying_pixels_nodup (gray_frame : Nat → Nat) :
    (qualifying_pixels gray_frame).Nodup :=
  List.Nodup.of_map to_feature (qualifying_features_nodup gray_frame)

/-- A working frame that is black except for the border pixel `(0, 10)` has exactly one
feature, the pixel `(1, 10)`. -/
theorem bright_border_one_feature (gray_frame : Nat → Nat) (features : Nat → feature_point_t)
    (h : ∀ i, i < 4800 → gray_frame i = if i = 800 then 255 else 0) :
    (detect_features gray_frame features 50).feature_count = 1 := by
  obtain ⟨hc, _, _⟩ := detect_features_spec gray_frame features 50
  have hsub : ∀ p, p ∈ qualifying_pixels gray_frame → p ∈ [((1 : Nat), (10 : Nat))] := by
    rintro ⟨x, y⟩ hp
    obtain ⟨⟨h1, h2, h3, h4⟩, n, hn, hgt⟩ := (mem_qualifying_pixels gray_frame (x, y)).1 hp
    simp only [List.mem_cons, List.mem_singleton, List.not_mem_nil, or_false] at hn
    simp only at h1 h2 h3 h4
    simp only [intensity] at hgt
    rw [h (y * 80 + x) (by omega)] at hgt
    rcases hn with rfl | rfl | rfl | rfl
    · simp only at hgt
      rw [h ((y - 1) * 80 + x) (by omega)] at hgt
      split_ifs at hgt <;> first | omega | (simp at hgt)
    · simp only at hgt
      rw [h ((y + 1) * 80 + x) (by omega)] at hgt
      split_ifs at hgt <;> first | omega | (simp at hgt)
    · simp only at hgt
      rw [h (y * 80 + (x - 1)) (by omega)] at hgt
      split_ifs at hgt with ha hb hb
      · omega
      · omega
      · have hx : x = 1 := by omega
        have hy : y = 10 := by omega
        simp [hx, hy]
      · simp at hgt
    · simp only at hgt
      rw [h (y * 80 + (x + 1)) (by omega)] at hgt
      split_ifs at hgt <;> first | omega | (simp at hgt)
  have hmem : ((1 : Nat), (10 : Nat)) ∈ qualifying_pixels gray_frame := by
    rw [mem_qualifying_pixels]
    refine ⟨by decide, (1 - 1, 10), by simp, ?_⟩
    simp only [intensity]
    rw [h (10 * 80 + 1) (by omega), h (10 * 80 + (1 - 1)) (by omega)]
    simp
  have hle : (qualifying_pixels gray_frame).length ≤ 1 :=
    (List.subperm_of_subset (qualifying_pixels_nodup gray_frame) hsub).length_le
  have hge : 1 ≤ (qualifying_pixels gray_frame).length :=
    List.length_pos_of_mem hmem
  have h50 : (50 : Int).toNat = 50 := rfl
  omega

/-- The number of matches never exceeds the number of current features. -/
theorem match_count_le_toNat (prev_features : Nat → feature_point_t) (prev_count : Int)
    (curr_features : Nat → feature_point_t) (curr_count : Int) (matches_buf : Nat → Int) :
    (match_features prev_features prev_count curr_features curr_count matches_buf).match_count ≤
      curr_count.toNat := by
  rw [(match_features_spec prev_features prev_count curr_features curr_count matches_buf).1]
  exact match_list_length_le _ _ _ _

theorem decode_some_eq_some (img : DecodedImage) (gray_frame : Nat → Nat) :
    ∃ g' : Nat → Nat, decode_jpeg_to_grayscale (some img) gray_frame = some g' :=
  ⟨_, rfl⟩

/-- Two successive cycles, started without previous features, on the same 80 x 60 image
that is black except for the border pixel `(0, 10)`: each cycle finds one feature, the
second one only logs the warning. -/
theorem two_cycles_single_feature (atan2 : ℚ → ℚ → ℚ) (now₁ now₂ : Int) (img : DecodedImage)
    (st : VOState) (hW : img.width = 80) (hH : img.height = 60)
    (hpix : ∀ i, i < 4800 → img.decoded_buffer i = if i = 800 then 255 else 0)
    (hcold : st.prev_feature_count = 0) :
    (visual_odometry_cycle atan2 now₁ (some (some img)) st).prev_feature_count = 1 ∧
    (visual_odometry_cycle atan2 now₂ (some (some img))
      (visual_odometry_cycle atan2 now₁ (some (some img)) st)).prev_feature_count = 1 ∧
    (visual_odometry_cycle atan2 now₂ (some (some img))
      (visual_odometry_cycle atan2 now₁ (some (some img)) st)).events =
        st.events ++ [vo_event.warn_insufficient_matches] := by
  obtain ⟨g₁, hg₁⟩ := decode_some_eq_some img st.current_gray_frame
  have hv₁ : ∀ i, i < 4800 → g₁ i = if i = 800 then 255 else 0 :=
    fun i hi => (decode_same_size img hW hH _ g₁ hg₁ i hi).trans (hpix i hi)
  have hc₁ := bright_border_one_feature g₁ st.curr_features hv₁
  have e₁ := vo_cycle_decoded atan2 now₁ img st g₁ hg₁
  rw [vo_match_and_send_cold _ _ _ _ _ hcold, hc₁] at e₁
  rw [e₁]
  obtain ⟨g₂, hg₂⟩ := decode_some_eq_some img g₁
  have hv₂ : ∀ i, i < 4800 → g₂ i = if i = 800 then 255 else 0 :=
    fun i hi => (decode_same_size img hW hH _ g₂ hg₂ i hi).trans (hpix i hi)
  have hc₂ := bright_border_one_feature g₂ (detect_features g₁ st.curr_features 50).features hv₂
  have e₂ := vo_cycle_decoded atan2 now₂ img
    { prev_gray_frame := memcpy st.prev_gray_frame g₁ 4800
      current_gray_frame := g₁
      prev_features := memcpy st.prev_features (detect_features g₁ st.curr_features 50).features 1
      curr_features := (detect_features g₁ st.curr_features 50).features
      matches_buf := st.matches_buf
      prev_feature_count := ((1 : Nat) : Int)
      events := st.events } g₂ hg₂
  rw [e₂]
  simp only [hc₂]
  have hev := vo_match_and_send_insufficient atan2 now₂
    { prev_gray_frame := memcpy st.prev_gray_frame g₁ 4800
      current_gray_frame := g₁
      prev_features := memcpy st.prev_features (detect_features g₁ st.curr_features 50).features 1
      curr_features := (detect_features g₁ st.curr_features 50).features
      matches_buf := st.matches_buf
      prev_feature_count := ((1 : Nat) : Int)
      events := st.events }
    (detect_features g₂ (detect_features g₁ st.curr_features 50).features 50).features
    ((1 : Nat) : Int) (by norm_num) (by decide)
    (lt_of_le_of_lt (match_count_le_toNat _ _ _ _ _) (by decide))
  exact ⟨rfl, rfl, hev⟩

/-! ### C13 -/

/-- C13, as stated, fails: the camera delivers twice the same 80 x 60 image with a single
feature.  The second cycle has one previous and one current feature and at most one match;
it logs the warning and hands nothing to the queue: no zero delta is produced. -/
theorem sparse_identical_frames_send_nothing :
    (visual_odometry_cycle (fun _ _ => 0) 1000 (some (some bright_border_image))
      initial_vo_state).prev_feature_count = 1 ∧
    (visual_odometry_cycle (fun _ _ => 0) 2000 (some (some bright_border_image))
      (visual_odometry_cycle (fun _ _ => 0) 1000 (some (some bright_border_image))
        initial_vo_state)).prev_feature_count = 1 ∧
    (visual_odometry_cycle (fun _ _ => 0) 2000 (some (some bright_border_image))
      (visual_odometry_cycle (fun _ _ => 0) 1000 (some (some bright_border_image))
        initial_vo_state)).events = [vo_event.warn_insufficient_matches] ∧
    queue_sends (visual_odometry_cycle (fun _ _ => 0) 2000 (some (some bright_border_image))
      (visual_odometry_cycle (fun _ _ => 0) 1000 (some (some bright_border_image))
        initial_vo_state)).events = [] := by
  obtain ⟨h₁, h₂, h₃⟩ := two_cycles_single_feature (fun _ _ => 0) 1000 2000
    bright_border_image initial_vo_state rfl rfl (fun _ _ => rfl) rfl
  refine ⟨h₁, h₂, h₃, ?_⟩
  rw [h₃]
  rfl

/-- C13, amended: in every odometry cycle where previous and current features exist but
matching yields fewer than 5 matches, the engine produces no output for the fusion
channel: it logs the warning and hands no `MotionDelta` to the queue (the zero-initialised
delta is dropped); the state is still carried over: after the cycle the working frame is
the decoded frame `g'`, the previous frame equals it on all 80 x 60 pixels, the previous
feature count is the number `n` of features detected in this cycle, and the first `n`
previous features are the detected ones. -/
theorem insufficient_matches_send_nothing (atan2 : ℚ → ℚ → ℚ) (now : Int)
    (img : DecodedImage) (st : VOState) (g' : Nat → Nat)
    (hdec : decode_jpeg_to_grayscale (some img) st.current_gray_frame = some g')
    (hp : 0 < st.prev_feature_count)
    (hc : 0 < (detect_features g' st.curr_features 50).feature_count)
    (hm : (match_features st.prev_features st.prev_feature_count
      (detect_features g' st.curr_features 50).features
      (detect_features g' st.curr_features 50).feature_count st.matches_buf).match_count < 5) :
    (visual_odometry_cycle atan2 now (some (some img)) st).events =
      st.events ++ [vo_event.warn_insufficient_matches] ∧
    queue_sends (visual_odometry_cycle atan2 now (some (some img)) st).events =
      queue_sends st.events ∧
    (visual_odometry_cycle atan2 now (some (some img)) st).current_gray_frame = g' ∧
    (∀ i, i < VO_IMAGE_WIDTH * VO_IMAGE_HEIGHT →
      (visual_odometry_cycle atan2 now (some (some img)) st).prev_gray_frame i = g' i) ∧
    (visual_odometry_cycle atan2 now (some (some img)) st).prev_feature_count =
      (detect_features g' st.curr_features 50).feature_count ∧
    (∀ i, i < (detect_features g' st.curr_features 50).feature_count →
      (visual_odometry_cycle atan2 now (some (some img)) st).prev_features i =
        (detect_features g' st.curr_features 50).features i) := by
  have hev := vo_match_and_send_insufficient atan2 now st
    (detect_features g' st.curr_features 50).features
    (detect_features g' st.curr_features 50).feature_count hp (by exact_mod_cast hc) hm
  rw [vo_cycle_decoded atan2 now img st g' hdec]
  refine ⟨hev, ?_, rfl, ?_, rfl, ?_⟩
  · simp only [hev, queue_sends_append_warn]
  · intro i hi
    have hi' : i < 4800 := hi
    simp [memcpy, hi']
  · intro i hi
    simp [memcpy, hi]

/-- Witness for C13 (amended): one previous feature `(1, 10)` and the image with the single
feature `(1, 10)`. -/
theorem insufficient_matches_send_nothing_witness :
    ∃ g' : Nat → Nat,
      decode_jpeg_to_grayscale (some bright_border_image)
        one_feature_state.current_gray_frame = some g' ∧
      0 < one_feature_state.prev_feature_count ∧
      0 < (detect_features g' one_feature_state.curr_features 50).feature_count ∧
      (match_features one_feature_state.prev_features one_feature_state.prev_feature_count
        (detect_features g' one_feature_state.curr_features 50).features
        (detect_features g' one_feature_state.curr_features 50).feature_count
        one_feature_state.matches_buf).match_count < 5 ∧
      (visual_odometry_cycle (fun _ _ => 0) 2000 (some (some bright_border_image))
        one_feature_state).events =
          one_feature_state.events ++ [vo_event.warn_insufficient_matches] ∧
      queue_sends (visual_odometry_cycle (fun _ _ => 0) 2000 (some (some bright_border_image))
        one_feature_state).events = queue_sends one_feature_state.events ∧
      (visual_odometry_cycle (fun _ _ => 0) 2000 (some (some bright_border_image))
        one_feature_state).current_gray_frame = g' ∧
      (∀ i, i < VO_IMAGE_WIDTH * VO_IMAGE_HEIGHT →
        (visual_odometry_cycle (fun _ _ => 0) 2000 (some (some bright_border_image))
          one_feature_state).prev_gray_frame i = g' i) ∧
      (visual_odometry_cycle (fun _ _ => 0) 2000 (some (some bright_border_image))
        one_feature_state).prev_feature_count =
          (detect_features g' one_feature_state.curr_features 50).feature_count ∧
      (∀ i, i < (detect_features g' one_feature_state.curr_features 50).feature_count →
        (visual_odometry_cycle (fun _ _ => 0) 2000 (some (some bright_border_image))
          one_feature_state).prev_features i =
            (detect_features g' one_feature_state.curr_features 50).features i) := by
  obtain ⟨g', hg'⟩ := decode_some_eq_some bright_border_image
    one_feature_state.current_gray_frame
  have hv : ∀ i, i < 4800 → g' i = if i = 800 then 255 else 0 :=
    fun i hi => decode_same_size bright_border_image rfl rfl _ g' hg' i hi
  have hc := bright_border_one_feature g' one_feature_state.curr_features hv
  have hp : 0 < one_feature_state.prev_feature_count := by decide
  have hc' : 0 < (detect_features g' one_feature_state.curr_features 50).feature_count := by
    omega
  have hm : (match_features one_feature_state.prev_features
      one_feature_state.prev_feature_count
      (detect_features g' one_feature_state.curr_features 50).features
      (detect_features g' one_feature_state.curr_features 50).feature_count
      one_feature_state.matches_buf).match_count < 5 := by
    have := match_count_le_toNat one_feature_state.prev_features
      one_feature_state.prev_feature_count
      (detect_features g' one_feature_state.curr_features 50).features
      (detect_features g' one_feature_state.curr_features 50).feature_count
      one_feature_state.matches_buf
    rw [hc] at this ⊢
    exact lt_of_le_of_lt this (by decide)
  exact ⟨g', hg', hp, hc', hm,
    insufficient_matches_send_nothing (fun _ _ => 0) 2000 bright_border_image
      one_feature_state g' hg' hp hc' hm⟩

/-! ### C14 -/

/-- C14, as stated, fails: a cycle of `navigation_task` that receives the reading
"forward sensor, 5 cm" (valid, and below any avoidance threshold above 5 cm) forwards no
`ObstacleData` to the autopilot; it only logs the reading. -/
theorem close_reading_forwards_nothing :
    navigation_cycle (some ⟨5, 1000, .SENSOR_FORWARD⟩) none =
      [nav_event.log_ultrasonic .SENSOR_FORWARD 5] ∧
    ¬ ∃ obstacle : ObstacleData,
      nav_event.send_obstacle_data_to_autopilot obstacle ∈
        navigation_cycle (some ⟨5, 1000, .SENSOR_FORWARD⟩) none := by
  refine ⟨rfl, ?_⟩
  rintro ⟨obstacle, h⟩
  simp [navigation_cycle] at h

/-- C14, amended: for every range reading received by the navigation cycle, whatever its
distance, the cycle logs the reading's sensor id and distance; it produces no
`ObstacleData` and forwards nothing to the autopilot interface (the source has no
avoidance threshold and no call of `send_obstacle_data_to_autopilot`). -/
theorem navigation_cycle_only_logs (ultrasonic_rx : Option ultrasonic_data_t)
    (vo_rx : Option vo_data_t) :
    (∀ reading : ultrasonic_data_t, ultrasonic_rx = some reading →
      nav_event.log_ultrasonic reading.id reading.distance_cm ∈
        navigation_cycle ultrasonic_rx vo_rx) ∧
    ∀ obstacle : ObstacleData,
      nav_event.send_obstacle_data_to_autopilot obstacle ∉
        navigation_cycle ultrasonic_rx vo_rx := by
  constructor
  · intro reading h
    simp [navigation_cycle, h]
  · intro obstacle h
    cases ultrasonic_rx <;> cases vo_rx <;> simp [navigation_cycle] at h

/-- Witness for C14 (amended): the reading "forward sensor, 5 cm". -/
theorem navigation_cycle_only_logs_witness :
    nav_event.log_ultrasonic .SENSOR_FORWARD 5 ∈
      navigation_cycle (some ⟨5, 1000, .SENSOR_FORWARD⟩) none :=
  (navigation_cycle_only_logs (some ⟨5, 1000, .SENSOR_FORWARD⟩) none).1
    ⟨5, 1000, .SENSOR_FORWARD⟩ rfl

/-! ### C15 -/

/-- C15: for every odometry cycle in which a frame is acquired and decoded (to the working
frame `g'`), whatever the match outcome, the state after the cycle has the working frame
`g'`, a previous frame equal to it on all 80 x 60 pixels, a previous feature count equal
to the number `n` of features detected in this cycle, and the first `n` previous features
equal to the detected ones; and when the state before the cycle holds zero previous
features, the cycle adds no event: no call of `estimate_motion`, nothing sent. -/
theorem cycle_carries_state_over (atan2 : ℚ → ℚ → ℚ) (now : Int) (img : DecodedImage)
    (st : VOState) :
    ∃ g' : Nat → Nat,
      decode_jpeg_to_grayscale (some img) st.current_gray_frame = some g' ∧
      (visual_odometry_cycle atan2 now (some (some img)) st).current_gray_frame = g' ∧
      (∀ i, i < VO_IMAGE_WIDTH * VO_IMAGE_HEIGHT →
        (visual_odometry_cycle atan2 now (some (some img)) st).prev_gray_frame i = g' i) ∧
      (visual_odometry_cycle atan2 now (some (some img)) st).prev_feature_count =
        (detect_features g' st.curr_features 50).feature_count ∧
      (∀ i, i < (detect_features g' st.curr_features 50).feature_count →
        (visual_odometry_cycle atan2 now (some (some img)) st).prev_features i =
          (detect_features g' st.curr_features 50).features i) ∧
      (st.prev_feature_count = 0 →
        (visual_odometry_cycle atan2 now (some (some img)) st).events = st.events) := by
  obtain ⟨g', hg'⟩ := decode_some_eq_some img st.current_gray_frame
  refine ⟨g', hg', ?_⟩
  rw [vo_cycle_decoded atan2 now img st g' hg']
  refine ⟨rfl, ?_, rfl, ?_, ?_⟩
  · intro i hi
    have hi' : i < 4800 := hi
    simp [memcpy, hi']
  · intro i hi
    simp [memcpy, hi]
  · intro hcold
    simp only [vo_match_and_send_cold atan2 now st _ _ hcold]

/-- Witness for C15: the first cycle after start-up, on the image with one feature. -/
theorem cycle_carries_state_over_witness :
    ∃ g' : Nat → Nat,
      decode_jpeg_to_grayscale (some bright_border_image)
        initial_vo_state.current_gray_frame = some g' ∧
      initial_vo_state.prev_feature_count = 0 ∧
      (visual_odometry_cycle (fun _ _ => 0) 1000 (some (some bright_border_image))
        initial_vo_state).prev_feature_count =
          (detect_features g' initial_vo_state.curr_features 50).feature_count ∧
      (visual_odometry_cycle (fun _ _ => 0) 1000 (some (some bright_border_image))
        initial_vo_state).events = initial_vo_state.events := by
  obtain ⟨g', hg', _, _, hcount, _, hcold⟩ :=
    cycle_carries_state_over (fun _ _ => 0) 1000 bright_border_image initial_vo_state
  exact ⟨g', hg', rfl, hcount, hcold rfl⟩

/-! ### C17 -/

/-- The current indices of the stored pairs are strictly increasing. -/
theorem match_list_pairwise (prev_features : Nat → feature_point_t) (prev_count : Int)
    (curr_features : Nat → feature_point_t) (m : Nat) :
    (match_list prev_features prev_count curr_features m).Pairwise fun a b => a.2 < b.2 := by
  induction m with
  | zero => simp [match_list]
  | succ m ih =>
    rw [match_list_succ, List.pairwise_append]
    refine ⟨ih, ?_, ?_⟩
    · split_ifs <;> simp
    · rintro ⟨p, c⟩ hpc b hb
      rw [mem_match_list] at hpc
      obtain ⟨i, hi, hci, _, _⟩ := hpc
      split_ifs at hb with hne
      · simp only [List.mem_singleton] at hb
        rw [hb]
        simp only [hci]
        exact_mod_cast hi
      · simp at hb

/-- C17: for counts `prev_count ≥ 0` and `curr_count ≥ 0`, `match_features` returns a
`match_count ≤ curr_count`; every stored pair `(p, c)` has `0 ≤ p < prev_count` and
`0 ≤ c < curr_count`; the current indices of successive pairs are strictly increasing;
hence with `curr_count ≤ 50` nothing is written at or beyond index 100 of `matches`, and
the two feature indices `estimate_motion` takes from every pair are below `prev_count` and
`curr_count`. -/
theorem match_features_indices_in_range (prev_features : Nat → feature_point_t)
    (prev_count : Nat) (curr_features : Nat → feature_point_t) (curr_count : Nat)
    (matches_buf : Nat → Int) :
    (match_features prev_features prev_count curr_features curr_count matches_buf).match_count ≤
      curr_count ∧
    (∀ t, t < (match_features prev_features prev_count curr_features curr_count
        matches_buf).match_count →
      0 ≤ (match_features prev_features prev_count curr_features curr_count
        matches_buf).matches_buf (t * 2) ∧
      (match_features prev_features prev_count curr_features curr_count
        matches_buf).matches_buf (t * 2) < prev_count ∧
      0 ≤ (match_features prev_features prev_count curr_features curr_count
        matches_buf).matches_buf (t * 2 + 1) ∧
      (match_features prev_features prev_count curr_features curr_count
        matches_buf).matches_buf (t * 2 + 1) < curr_count ∧
      ((match_features prev_features prev_count curr_features curr_count
        matches_buf).matches_buf (t * 2)).toNat < prev_count ∧
      ((match_features prev_features prev_count curr_features curr_count
        matches_buf).matches_buf (t * 2 + 1)).toNat < curr_count) ∧
    (∀ t u, t < u →
      u < (match_features prev_features prev_count curr_features curr_count
        matches_buf).match_count →
      (match_features prev_features prev_count curr_features curr_count
        matches_buf).matches_buf (t * 2 + 1) <
      (match_features prev_features prev_count curr_features curr_count
        matches_buf).matches_buf (u * 2 + 1)) ∧
    (curr_count ≤ 50 →
      ∀ k, 100 ≤ k →
        (match_features prev_features prev_count curr_features curr_count
          matches_buf).matches_buf k = matches_buf k) := by
  obtain ⟨hc, hlt, hge⟩ :=
    match_features_spec prev_features prev_count curr_features curr_count matches_buf
  have hle := match_count_le_toNat prev_features prev_count curr_features curr_count matches_buf
  rw [Int.toNat_natCast] at hle hc hlt
  refine ⟨hle, ?_, ?_, ?_⟩
  · intro t ht
    have hmem := List.mem_iff_getElem?.2 ⟨t, hlt t ht⟩
    rw [mem_match_list] at hmem
    obtain ⟨i, hi, hci, hne, hbest⟩ := hmem
    obtain ⟨b, hb, hbi, _, _, _⟩ :=
      best_match_ne_neg_one prev_features prev_count (curr_features i) (hbest ▸ hne)
    rw [hbest] at hbi
    rw [hbi, hci]
    refine ⟨by omega, hb, by omega, by exact_mod_cast hi, ?_, ?_⟩
    · rw [Int.toNat_natCast]; exact_mod_cast hb
    · rw [Int.toNat_natCast]; exact hi
  · intro t u htu hu
    have h₁ := hlt t (by omega)
    have h₂ := hlt u hu
    have hpw := match_list_pairwise prev_features prev_count curr_features curr_count
    rw [List.pairwise_iff_getElem] at hpw
    obtain ⟨ht', hget₁⟩ := List.getElem?_eq_some.1 h₁
    obtain ⟨hu', hget₂⟩ := List.getElem?_eq_some.1 h₂
    have := hpw t u ht' hu' htu
    rw [hget₁, hget₂] at this
    exact this
  · intro h50 k hk
    exact hge k (by omega)

/-- Witness for C17: one previous feature, two current features next to it (the two
matches of the C5 counterexample), in the engine's 100-entry buffer. -/
theorem match_features_indices_in_range_witness :
    (2 : Nat) ≤ 50 ∧
    (match_features (fun _ => ⟨1, 10⟩) (1 : Nat) (fun i => ⟨1, 10 + i⟩) (2 : Nat)
      (fun _ => 0)).match_count ≤ 2 ∧
    ∀ k, 100 ≤ k →
      (match_features (fun _ => ⟨1, 10⟩) (1 : Nat) (fun i => ⟨1, 10 + i⟩) (2 : Nat)
        (fun _ => 0)).matches_buf k = (fun _ => 0) k :=
  ⟨by decide,
    (match_features_indices_in_range (fun _ => ⟨1, 10⟩) 1 (fun i => ⟨1, 10 + i⟩) 2
      (fun _ => 0)).1,
    (match_features_indices_in_range (fun _ => ⟨1, 10⟩) 1 (fun i => ⟨1, 10 + i⟩) 2
      (fun _ => 0)).2.2.2 (by decide)⟩

end HybridDrone
